import Mathlib

/-!
# VideoSort-V2 — verification of the identification-engine specification

A shallow embedding, in Lean 4, of the parts of the VideoSort-V2 Python
sources that the specification's claims are about:

* `src/tmdb_client.py`    — `TMDBClient.calculate_title_similarity`
* `src/audio_analyzer.py` — `AudioAnalyzer.find_movie_by_audio_analysis`
* `src/video_analyzer.py` — `VideoAnalyzer.perform_visual_analysis`,
  `extract_video_info` and the filename-parsing helpers it calls
* `src/file_organizer.py` — the per-file layer pipeline of
  `FileOrganizer.process_videos`, its decision threshold, its run statistics
  and its collision-safe rename loop

Modelling conventions:

* Python `float` scores are modelled as `ℚ`; the decimal literals in the
  source (`0.95`, `0.60`, …) become exact rationals.
* Python strings are Lean `String`s; regular-expression steps are embedded
  as explicit character-list scanners that implement the concrete pattern
  used by the source.  Character classes (`\d`, `\w`, `\s`, `str.isalpha`,
  `str.lower`) are modelled by the corresponding ASCII predicates of
  `Char`; filenames are assumed newline-free, so `.` is modelled as
  "any character" and `$` as end of string (Python semantics coincide on
  newline-free input).
* Network and media I/O (TMDb search, OpenSubtitles search, OCR, face
  recognition, ffmpeg) are modelled as oracle parameters: the embedded
  functions take the I/O results as explicit inputs and are faithful to the
  source from that point on.
-/

namespace VideoSort

/-- Python `str.lower()` (ASCII model). -/
def pyLower (s : String) : String := ⟨s.data.map Char.toLower⟩

/-- Python `str.strip()` with no argument: drop leading and trailing
whitespace. -/
def pyStrip (s : String) : String :=
  ⟨((s.data.dropWhile Char.isWhitespace).reverse.dropWhile Char.isWhitespace).reverse⟩

/-- Helper for `pySplitWs`: accumulate the current word (reversed in `acc`)
while splitting on whitespace runs. -/
def pySplitWsAux : List Char → List Char → List String
  | [], acc => if acc.isEmpty then [] else [⟨acc.reverse⟩]
  | c :: cs, acc =>
    if c.isWhitespace then
      if acc.isEmpty then pySplitWsAux cs [] else (⟨acc.reverse⟩ : String) :: pySplitWsAux cs []
    else pySplitWsAux cs (c :: acc)

/-- Python `str.split()` with no argument: split on whitespace runs,
discarding empty pieces. -/
def pySplitWs (s : String) : List String := pySplitWsAux s.data []

/-- The set of whitespace-separated words of a string, as used by
`calculate_title_similarity` (`set(title.split())`). -/
def wordSet (s : String) : Finset String := (pySplitWs s).toFinset

/-- Embedding of `TMDBClient.calculate_title_similarity`
(src/tmdb_client.py, lines 16-35): lowercase and strip both titles,
short-circuit to 1 on string equality, otherwise Jaccard similarity of the
word sets (0 if either set is empty). -/
def calculate_title_similarity (title1 title2 : String) : ℚ :=
  let t1 := pyStrip (pyLower title1)
  let t2 := pyStrip (pyLower title2)
  if t1 = t2 then 1
  else
    let words1 := wordSet t1
    let words2 := wordSet t2
    if words1 = ∅ ∨ words2 = ∅ then 0
    else ((words1 ∩ words2).card : ℚ) / ((words1 ∪ words2).card : ℚ)

/-- The normalisation `calculate_title_similarity` applies to each argument
before comparing (`title.lower().strip()`). -/
def titleNorm (s : String) : String := pyStrip (pyLower s)

/-- C4, counterexample: the claim states the similarity equals 1 **iff**
the lowercased, stripped strings are equal, but `"ab cd"` and `"cd ab"`
normalise to different strings while their word sets coincide, so the code
returns 1. -/
theorem C4_counterexample :
    calculate_title_similarity "ab cd" "cd ab" = 1 ∧
      titleNorm "ab cd" ≠ titleNorm "cd ab" := by
  refine ⟨?_, by decide⟩
  simp only [calculate_title_similarity]
  rw [if_neg (by decide), if_neg (by decide)]
  have h1 : (wordSet (pyStrip (pyLower "ab cd")) ∩ wordSet (pyStrip (pyLower "cd ab"))).card = 2 := by
    decide
  have h2 : (wordSet (pyStrip (pyLower "ab cd")) ∪ wordSet (pyStrip (pyLower "cd ab"))).card = 2 := by
    decide
  rw [h1, h2]; norm_num

/-- C4, amended: for all title pairs the similarity lies in `[0, 1]`; it
equals 1 iff the normalised strings are equal **or the two lowercase word
sets are equal and nonempty** (string equality is sufficient but not
necessary); and when the word sets share exactly one word the result is
`1 / (|A| + |B| - 1)`. -/
theorem C4_amended (a b : String) :
    (0 ≤ calculate_title_similarity a b ∧ calculate_title_similarity a b ≤ 1) ∧
      (calculate_title_similarity a b = 1 ↔
        (titleNorm a = titleNorm b ∨
          (wordSet (titleNorm a) = wordSet (titleNorm b) ∧ wordSet (titleNorm a) ≠ ∅))) ∧
      ((wordSet (titleNorm a) ∩ wordSet (titleNorm b)).card = 1 →
        calculate_title_similarity a b =
          1 / (((wordSet (titleNorm a)).card : ℚ) + ((wordSet (titleNorm b)).card : ℚ) - 1)) := by
  simp only [calculate_title_similarity, titleNorm]
  set A := wordSet (pyStrip (pyLower a)) with hA
  set B := wordSet (pyStrip (pyLower b)) with hB
  split_ifs with heq hemp
  · -- normalised strings are equal
    have hAB : A = B := by rw [hA, hB, heq]
    refine ⟨⟨by norm_num, le_refl 1⟩, ⟨fun _ => Or.inl heq, fun _ => rfl⟩, fun hcard => ?_⟩
    rw [hAB, Finset.inter_self] at hcard
    rw [hAB, hcard]
    norm_num
  · -- strings differ and one word set is empty: similarity 0
    refine ⟨⟨le_refl 0, by norm_num⟩, ?_, fun hcard => ?_⟩
    · constructor
      · intro h; exact absurd h (by norm_num)
      · rintro (h | ⟨hab, hne⟩)
        · exact absurd h heq
        · rcases hemp with h0 | h0
          · exact absurd h0 hne
          · exact absurd (hab.trans h0) hne
    · exfalso
      rcases hemp with h0 | h0
      · rw [h0, Finset.empty_inter] at hcard; simp at hcard
      · rw [h0, Finset.inter_empty] at hcard; simp at hcard
  · -- strings differ, both word sets nonempty: Jaccard quotient
    push_neg at hemp
    obtain ⟨hAne, hBne⟩ := hemp
    have hUpos : 0 < (A ∪ B).card := by
      rcases Finset.nonempty_iff_ne_empty.mpr hAne with ⟨x, hx⟩
      exact Finset.card_pos.mpr ⟨x, Finset.mem_union_left _ hx⟩
    have hUQ : ((A ∪ B).card : ℚ) ≠ 0 := by
      exact_mod_cast Nat.pos_iff_ne_zero.mp hUpos
    have hle : (A ∩ B).card ≤ (A ∪ B).card :=
      Finset.card_le_card (Finset.inter_subset_union)
    refine ⟨⟨by positivity, ?_⟩, ?_, fun hcard => ?_⟩
    · rw [div_le_one (by exact_mod_cast hUpos)]
      exact_mod_cast hle
    · rw [div_eq_one_iff_eq hUQ]
      constructor
      · intro h
        have hcards : (A ∩ B).card = (A ∪ B).card := by exact_mod_cast h
        have hsets : A ∩ B = A ∪ B :=
          Finset.eq_of_subset_of_card_le Finset.inter_subset_union (le_of_eq hcards.symm)
        have hABeq : A = B := by
          apply Finset.Subset.antisymm
          · intro x hx
            have : x ∈ A ∩ B := by rw [hsets]; exact Finset.mem_union_left _ hx
            exact (Finset.mem_inter.mp this).2
          · intro x hx
            have : x ∈ A ∩ B := by rw [hsets]; exact Finset.mem_union_right _ hx
            exact (Finset.mem_inter.mp this).1
        exact Or.inr ⟨hABeq, hAne⟩
      · rintro (h | ⟨hab, _⟩)
        · exact absurd h heq
        · rw [hab, Finset.inter_self, Finset.union_self]
    · have hsum := Finset.card_union_add_card_inter A B
      have hQ : ((A ∪ B).card : ℚ) = (A.card : ℚ) + (B.card : ℚ) - 1 := by
        rw [hcard] at hsum
        have h2 : ((A ∪ B).card : ℚ) + 1 = (A.card : ℚ) + (B.card : ℚ) := by
          exact_mod_cast hsum
        linarith
      rw [hcard, hQ]
      norm_num

/-- C4, witness for the amended theorem at the concrete pair
`("ab cd", "cd ef")`, which shares exactly the word `"cd"`. -/
theorem C4_amended_witness :
    (wordSet (titleNorm "ab cd") ∩ wordSet (titleNorm "cd ef")).card = 1 ∧
      calculate_title_similarity "ab cd" "cd ef" =
        1 / (((wordSet (titleNorm "ab cd")).card : ℚ) + ((wordSet (titleNorm "cd ef")).card : ℚ) - 1) :=
  ⟨by decide, (C4_amended "ab cd" "cd ef").2.2 (by decide)⟩

/-!
## Audio analysis — `AudioAnalyzer.find_movie_by_audio_analysis`
(src/audio_analyzer.py, lines 352-448)

The OpenSubtitles network search (`search_opensubtitles(phrase, max_results=3)`)
is modelled as an oracle parameter `search : String → List SubResult`
returning the processed result list for a query phrase.  A transcription
dictionary enters this function only through its `text` field, so a
transcription is modelled as that string.
-/

/-- One processed OpenSubtitles result as produced by
`search_opensubtitles`: the fields `find_movie_by_audio_analysis` reads. -/
structure SubResult where
  title : String
  year : String
  imdb_id : String
  download_count : ℚ
  rating : ℚ
deriving DecidableEq

/-- One entry of the `best_matches` list. -/
structure AudioMatch where
  title : String
  year : String
  imdb_id : String
  score : ℚ
  matched_phrase : String
deriving DecidableEq

/-- One `(title, year)` consensus bucket of the `title_counts` dict
(`{'count': …, 'data': …}` keyed by `f"{title} ({year})"`). -/
structure TitleGroup where
  key : String
  count : ℕ
  data : AudioMatch
deriving DecidableEq

/-- The identification dict returned on success. -/
structure AudioIdentification where
  title : String
  year : String
  imdb_id : String
  confidence_score : ℚ
  matched_phrases : ℕ
  total_phrases : ℕ
deriving DecidableEq

/-- Is the character one of the sentence delimiters of `re.split(r'[.!?]+', …)`? -/
def isSentencePunct (c : Char) : Bool := c = '.' || c = '!' || c = '?'

mutual

/-- Embedding of `re.split(r'[.!?]+', text)`: the current piece is accumulated (reversed)
in `acc`; a delimiter ends the piece and a delimiter *run* counts once. -/
def splitSentencesAux : List Char → List Char → List String
  | [], acc => [⟨acc.reverse⟩]
  | c :: cs, acc =>
    if isSentencePunct c then (⟨acc.reverse⟩ : String) :: splitSentencesRun cs
    else splitSentencesAux cs (c :: acc)

/-- Skip the remainder of a delimiter run, then resume piece accumulation. -/
def splitSentencesRun : List Char → List String
  | [] => [""]
  | c :: cs => if isSentencePunct c then splitSentencesRun cs else splitSentencesAux cs [c]

end

/-- Embedding of `re.split(r'[.!?]+', text)` on a string. -/
def splitSentences (s : String) : List String := splitSentencesAux s.data []

/-- Embedding of `' '.join([t['text'] for t in transcriptions if t.get('text')])`:
the combined transcript text. -/
def audioAllText (transcriptions : List String) : String :=
  String.intercalate " " (transcriptions.filter (fun t => t ≠ ""))

/-- The `distinctive_phrases` list: stripped sentences whose
whitespace-split word count is between 5 and 15. -/
def distinctivePhrases (allText : String) : List String :=
  (splitSentences allText).filterMap fun sentence =>
    let words := pySplitWs (pyStrip sentence)
    if 5 ≤ words.length ∧ words.length ≤ 15 then some (pyStrip sentence) else none

/-- The `best_matches` accumulation: for each of the first 5 distinctive
phrases, every search result contributes one match scored
`download_count * 0.5 + rating * 0.3`. -/
def audioBestMatches (search : String → List SubResult) (phrases : List String) :
    List AudioMatch :=
  (phrases.take 5).flatMap fun phrase =>
    (search phrase).map fun r =>
      { title := r.title, year := r.year, imdb_id := r.imdb_id,
        score := r.download_count * 0.5 + r.rating * 0.3,
        matched_phrase := phrase }

/-- Insert a match into a descending-by-score list, after any element of
equal score (so the overall sort below is stable, like Python's
`list.sort(key=…, reverse=True)`). -/
def insertByScoreDesc (m : AudioMatch) : List AudioMatch → List AudioMatch
  | [] => [m]
  | x :: xs => if m.score > x.score then m :: x :: xs else x :: insertByScoreDesc m xs

/-- Stable descending sort by `score`
(`best_matches.sort(key=lambda x: x['score'], reverse=True)`). -/
def sortByScoreDesc (l : List AudioMatch) : List AudioMatch :=
  l.foldl (fun acc m => insertByScoreDesc m acc) []

/-- One step of building `title_counts`: a new key is appended with count 1,
an existing key's count is incremented and its `data` (first match) kept. -/
def addToGroups (groups : List TitleGroup) (m : AudioMatch) : List TitleGroup :=
  let key := m.title ++ " (" ++ m.year ++ ")"
  if groups.any (fun g => g.key = key) then
    groups.map fun g => if g.key = key then { g with count := g.count + 1 } else g
  else groups ++ [{ key := key, count := 1, data := m }]

/-- The dict `title_counts` built from the top-10 sorted matches, in insertion order
(Python dicts preserve insertion order). -/
def titleGroups (sortedMatches : List AudioMatch) : List TitleGroup :=
  (sortedMatches.take 10).foldl addToGroups []

/-- Embedding of `max(title_counts.values(), key=lambda x: x['count'])`: the first group
attaining the maximal count, in insertion order. -/
def firstMostCommon : List TitleGroup → Option TitleGroup
  | [] => none
  | g :: gs => some (gs.foldl (fun best x => if x.count > best.count then x else best) g)

/-- Embedding of `AudioAnalyzer.find_movie_by_audio_analysis`
(src/audio_analyzer.py, lines 352-448), with the OpenSubtitles search as an
oracle.  Accepts only when the most frequent `(title, year)` bucket among
the top-10 scored results has count ≥ 2; the returned confidence is
`min(0.9, count / len(distinctive_phrases))`. -/
def find_movie_by_audio_analysis (search : String → List SubResult)
    (transcriptions : List String) : Option AudioIdentification :=
  if transcriptions.isEmpty then none
  else if (pyStrip (audioAllText transcriptions)).length < 10 then none
  else if (distinctivePhrases (audioAllText transcriptions)).isEmpty then none
  else if (audioBestMatches search (distinctivePhrases (audioAllText transcriptions))).isEmpty then
    none
  else
    match firstMostCommon (titleGroups (sortByScoreDesc
        (audioBestMatches search (distinctivePhrases (audioAllText transcriptions))))) with
    | none => none
    | some mc =>
      if 2 ≤ mc.count then
        some { title := mc.data.title, year := mc.data.year,
               imdb_id := mc.data.imdb_id,
               confidence_score :=
                 min 0.9 ((mc.count : ℚ) /
                   ((distinctivePhrases (audioAllText transcriptions)).length : ℚ)),
               matched_phrases := mc.count,
               total_phrases := (distinctivePhrases (audioAllText transcriptions)).length }
      else none

/-- A subtitle-search oracle that returns, for every phrase, two results
carrying the same `(title, year)` but different subtitle ids. -/
def audioSearchPair : String → List SubResult := fun _ =>
  [⟨"X", "2000", "tt1", 10, 5⟩, ⟨"X", "2000", "tt2", 8, 2⟩]

/-- A transcription set producing exactly one distinctive phrase. -/
def audioTsSingle : List String := ["hello there big wide world"]

/-- Evaluation of `find_movie_by_audio_analysis` on the single-phrase
input: the two same-title hits of the one phrase already reach consensus. -/
lemma audio_find_single_phrase :
    find_movie_by_audio_analysis audioSearchPair audioTsSingle =
      some ⟨"X", "2000", "tt1", min 0.9 ((2 : ℚ) / (1 : ℚ)), 2, 1⟩ := by
  have hsort : sortByScoreDesc
      [⟨"X", "2000", "tt1", 10 * 0.5 + 5 * 0.3, "hello there big wide world"⟩,
       ⟨"X", "2000", "tt2", 8 * 0.5 + 2 * 0.3, "hello there big wide world"⟩] =
      [⟨"X", "2000", "tt1", 10 * 0.5 + 5 * 0.3, "hello there big wide world"⟩,
       ⟨"X", "2000", "tt2", 8 * 0.5 + 2 * 0.3, "hello there big wide world"⟩] := by
    norm_num [sortByScoreDesc, insertByScoreDesc]
  have htg : titleGroups
      [⟨"X", "2000", "tt1", 10 * 0.5 + 5 * 0.3, "hello there big wide world"⟩,
       ⟨"X", "2000", "tt2", 8 * 0.5 + 2 * 0.3, "hello there big wide world"⟩] =
      [⟨"X (2000)", 2, ⟨"X", "2000", "tt1", 10 * 0.5 + 5 * 0.3, "hello there big wide world"⟩⟩] := by
    norm_num [titleGroups, addToGroups]
    decide
  rw [find_movie_by_audio_analysis]
  rw [if_neg (by decide), if_neg (by decide), if_neg (by decide), if_neg (by decide)]
  rw [show distinctivePhrases (audioAllText audioTsSingle) =
      ["hello there big wide world"] from by decide]
  rw [show audioBestMatches audioSearchPair ["hello there big wide world"] =
      [⟨"X", "2000", "tt1", 10 * 0.5 + 5 * 0.3, "hello there big wide world"⟩,
       ⟨"X", "2000", "tt2", 8 * 0.5 + 2 * 0.3, "hello there big wide world"⟩] from rfl]
  rw [hsort, htg]
  rw [show firstMostCommon
      [⟨"X (2000)", 2, ⟨"X", "2000", "tt1", 10 * 0.5 + 5 * 0.3, "hello there big wide world"⟩⟩] =
      some ⟨"X (2000)", 2, ⟨"X", "2000", "tt1", 10 * 0.5 + 5 * 0.3, "hello there big wide world"⟩⟩ from rfl]
  rfl

/-- C2, counterexample: with a single distinctive phrase whose search
returns two results with the same `(title, year)`, the code accepts — the
"at least 2 coincidences" test counts subtitle hits, not independent
phrases, so a title supported by one phrase alone can be accepted. -/
theorem C2_counterexample :
    (find_movie_by_audio_analysis audioSearchPair audioTsSingle).isSome = true ∧
      (distinctivePhrases (audioAllText audioTsSingle)).length = 1 := by
  refine ⟨?_, by decide⟩
  rw [audio_find_single_phrase]
  rfl

/-- C2, amended: a non-`None` identification is returned only when the
selected `(title, year)` bucket accumulates at least 2 subtitle-result hits
among the top-10 scored results; those hits need not come from distinct
phrases. -/
theorem C2_amended (search : String → List SubResult) (ts : List String)
    (r : AudioIdentification)
    (h : find_movie_by_audio_analysis search ts = some r) :
    2 ≤ r.matched_phrases := by
  rw [find_movie_by_audio_analysis] at h
  by_cases h1 : ts.isEmpty = true
  · rw [if_pos h1] at h; cases h
  rw [if_neg h1] at h
  by_cases h2 : (pyStrip (audioAllText ts)).length < 10
  · rw [if_pos h2] at h; cases h
  rw [if_neg h2] at h
  by_cases h3 : (distinctivePhrases (audioAllText ts)).isEmpty = true
  · rw [if_pos h3] at h; cases h
  rw [if_neg h3] at h
  by_cases h4 :
      (audioBestMatches search (distinctivePhrases (audioAllText ts))).isEmpty = true
  · rw [if_pos h4] at h; cases h
  rw [if_neg h4] at h
  revert h
  cases firstMostCommon (titleGroups (sortByScoreDesc
      (audioBestMatches search (distinctivePhrases (audioAllText ts))))) with
  | none => intro h; cases h
  | some mc =>
    intro h
    replace h : (if 2 ≤ mc.count then
        some (⟨mc.data.title, mc.data.year, mc.data.imdb_id,
          min 0.9 ((mc.count : ℚ) / ((distinctivePhrases (audioAllText ts)).length : ℚ)),
          mc.count, (distinctivePhrases (audioAllText ts)).length⟩ : AudioIdentification)
      else none) = some r := h
    by_cases hc : 2 ≤ mc.count
    · rw [if_pos hc] at h
      cases h
      exact hc
    · rw [if_neg hc] at h; cases h

/-- C2, witness: the amended bound holds on the single-phrase run. -/
theorem C2_amended_witness :
    2 ≤ (⟨"X", "2000", "tt1", min 0.9 ((2 : ℚ) / (1 : ℚ)), 2, 1⟩ :
      AudioIdentification).matched_phrases :=
  C2_amended audioSearchPair audioTsSingle _ audio_find_single_phrase

/-- A subtitle-search oracle with hits (same title, two subtitle ids) only
for the first of six distinctive phrases. -/
def audioSearchSix : String → List SubResult := fun p =>
  if p = "one two three four five" then
    [⟨"X", "2000", "tt1", 10, 5⟩, ⟨"X", "2000", "tt2", 8, 2⟩]
  else []

/-- A transcription set with six distinctive phrases (only five of which
are ever submitted to the subtitle search). -/
def audioTsSix : List String :=
  ["one two three four five. one two three four six. one two three four svn. one two three four eig. one two three four nin. one two three four ten"]

set_option maxRecDepth 8000 in
/-- Evaluation of `find_movie_by_audio_analysis` on the six-phrase input:
two hits for the first phrase, none for the rest; the confidence divides by
all 6 distinctive phrases, not by the 5 phrases submitted. -/
lemma audio_find_six_phrases :
    find_movie_by_audio_analysis audioSearchSix audioTsSix =
      some ⟨"X", "2000", "tt1", min 0.9 ((2 : ℚ) / (6 : ℚ)), 2, 6⟩ := by
  have hsort : sortByScoreDesc
      [⟨"X", "2000", "tt1", 10 * 0.5 + 5 * 0.3, "one two three four five"⟩,
       ⟨"X", "2000", "tt2", 8 * 0.5 + 2 * 0.3, "one two three four five"⟩] =
      [⟨"X", "2000", "tt1", 10 * 0.5 + 5 * 0.3, "one two three four five"⟩,
       ⟨"X", "2000", "tt2", 8 * 0.5 + 2 * 0.3, "one two three four five"⟩] := by
    norm_num [sortByScoreDesc, insertByScoreDesc]
  have htg : titleGroups
      [⟨"X", "2000", "tt1", 10 * 0.5 + 5 * 0.3, "one two three four five"⟩,
       ⟨"X", "2000", "tt2", 8 * 0.5 + 2 * 0.3, "one two three four five"⟩] =
      [⟨"X (2000)", 2, ⟨"X", "2000", "tt1", 10 * 0.5 + 5 * 0.3, "one two three four five"⟩⟩] := by
    norm_num [titleGroups, addToGroups]
    decide
  rw [find_movie_by_audio_analysis]
  rw [if_neg (by decide), if_neg (by decide), if_neg (by decide), if_neg (by decide)]
  rw [show distinctivePhrases (audioAllText audioTsSix) =
      ["one two three four five", "one two three four six", "one two three four svn",
       "one two three four eig", "one two three four nin", "one two three four ten"] from by decide]
  rw [show audioBestMatches audioSearchSix
      ["one two three four five", "one two three four six", "one two three four svn",
       "one two three four eig", "one two three four nin", "one two three four ten"] =
      [⟨"X", "2000", "tt1", 10 * 0.5 + 5 * 0.3, "one two three four five"⟩,
       ⟨"X", "2000", "tt2", 8 * 0.5 + 2 * 0.3, "one two three four five"⟩] from rfl]
  rw [hsort, htg]
  rw [show firstMostCommon
      [⟨"X (2000)", 2, ⟨"X", "2000", "tt1", 10 * 0.5 + 5 * 0.3, "one two three four five"⟩⟩] =
      some ⟨"X (2000)", 2, ⟨"X", "2000", "tt1", 10 * 0.5 + 5 * 0.3, "one two three four five"⟩⟩ from rfl]
  rfl

/-- C8, counterexample: six distinctive phrases, only five submitted, two
hits on the first phrase.  The code's confidence is
`min(0.9, 2/6) = 1/3`, not the claimed `min(0.9, 2/5)`: the denominator is
the number of *all* distinctive phrases, not the number submitted. -/
theorem C8_counterexample :
    (find_movie_by_audio_analysis audioSearchSix audioTsSix).map
        (fun r => r.confidence_score) = some ((1 : ℚ) / 3) ∧
      ((1 : ℚ) / 3) ≠ min 0.9 ((2 : ℚ) / 5) := by
  refine ⟨?_, by norm_num [min_def]⟩
  rw [audio_find_six_phrases]
  norm_num [min_def]

/-- C8, amended: whenever a title is accepted, the returned confidence is
`min(0.9, hit_count / total_distinctive_phrases)` where the denominator
counts *all* distinctive phrases extracted (possibly more than the 5
actually submitted); in particular the confidence never exceeds 0.9. -/
theorem C8_amended (search : String → List SubResult) (ts : List String)
    (r : AudioIdentification)
    (h : find_movie_by_audio_analysis search ts = some r) :
    r.confidence_score =
        min 0.9 ((r.matched_phrases : ℚ) / (r.total_phrases : ℚ)) ∧
      r.total_phrases = (distinctivePhrases (audioAllText ts)).length ∧
      r.confidence_score ≤ 0.9 := by
  rw [find_movie_by_audio_analysis] at h
  by_cases h1 : ts.isEmpty = true
  · rw [if_pos h1] at h; cases h
  rw [if_neg h1] at h
  by_cases h2 : (pyStrip (audioAllText ts)).length < 10
  · rw [if_pos h2] at h; cases h
  rw [if_neg h2] at h
  by_cases h3 : (distinctivePhrases (audioAllText ts)).isEmpty = true
  · rw [if_pos h3] at h; cases h
  rw [if_neg h3] at h
  by_cases h4 :
      (audioBestMatches search (distinctivePhrases (audioAllText ts))).isEmpty = true
  · rw [if_pos h4] at h; cases h
  rw [if_neg h4] at h
  revert h
  cases firstMostCommon (titleGroups (sortByScoreDesc
      (audioBestMatches search (distinctivePhrases (audioAllText ts))))) with
  | none => intro h; cases h
  | some mc =>
    intro h
    replace h : (if 2 ≤ mc.count then
        some (⟨mc.data.title, mc.data.year, mc.data.imdb_id,
          min 0.9 ((mc.count : ℚ) / ((distinctivePhrases (audioAllText ts)).length : ℚ)),
          mc.count, (distinctivePhrases (audioAllText ts)).length⟩ : AudioIdentification)
      else none) = some r := h
    by_cases hc : 2 ≤ mc.count
    · rw [if_pos hc] at h
      cases h
      exact ⟨rfl, rfl, min_le_left _ _⟩
    · rw [if_neg hc] at h; cases h

/-- C8, witness: the amended formula on the six-phrase run. -/
theorem C8_amended_witness :
    (⟨"X", "2000", "tt1", min 0.9 ((2 : ℚ) / (6 : ℚ)), 2, 6⟩ :
        AudioIdentification).confidence_score =
        min 0.9
          (((⟨"X", "2000", "tt1", min 0.9 ((2 : ℚ) / (6 : ℚ)), 2, 6⟩ :
            AudioIdentification).matched_phrases : ℚ) /
          ((⟨"X", "2000", "tt1", min 0.9 ((2 : ℚ) / (6 : ℚ)), 2, 6⟩ :
            AudioIdentification).total_phrases : ℚ)) ∧
      (⟨"X", "2000", "tt1", min 0.9 ((2 : ℚ) / (6 : ℚ)), 2, 6⟩ :
          AudioIdentification).total_phrases =
        (distinctivePhrases (audioAllText audioTsSix)).length ∧
      (⟨"X", "2000", "tt1", min 0.9 ((2 : ℚ) / (6 : ℚ)), 2, 6⟩ :
        AudioIdentification).confidence_score ≤ 0.9 :=
  C8_amended audioSearchSix audioTsSix _ audio_find_six_phrases

/-!
## Visual analysis — `VideoAnalyzer.perform_visual_analysis`
(src/video_analyzer.py, lines 546-676)

The media I/O is modelled by a `videoOk` flag (file exists, video opens,
`total_frames > 0`) and by the list of strategic frame captures, each
carrying the `cap.read()` success flag, the OCR output of
`extract_text_from_frame` and the face matches of
`detect_actors_in_frame`.  `generate_search_suggestion` (a pure regex
heuristic over the combined text) enters this function only through its
returned string, and is passed as the parameter `genSug`.
-/

/-- One strategic frame capture: the `cap.read()` success flag, the OCR
text, and the recognised actors for that frame. -/
structure FrameCapture where
  ok : Bool
  text : String
  actors : List String
deriving DecidableEq

/-- The analysis dict built by `perform_visual_analysis`. -/
structure VisualAnalysisResult where
  detected_text : String
  actors : List String
  google_search_suggestion : String
  confidence : ℚ
deriving DecidableEq

/-- The `all_text` list: per successful frame, the stripped OCR text if it
is truthy and longer than 3 characters after stripping. -/
def visualAllText (frames : List FrameCapture) : List String :=
  frames.filterMap fun f =>
    if f.ok ∧ f.text ≠ "" ∧ 3 < (pyStrip f.text).length then some (pyStrip f.text) else none

/-- The `detected_actors` list: actor matches accumulated over successful
frames, gathered only when the actors database is nonempty. -/
def visualActors (frames : List FrameCapture) (actorsDbNonempty : Bool) : List String :=
  if actorsDbNonempty then frames.flatMap (fun f => if f.ok then f.actors else []) else []

/-- The `detected_text` field: the space-joined `all_text`, or the initial
`''` when no useful text was extracted. -/
def visualDetectedText (frames : List FrameCapture) : String :=
  if (visualAllText frames).isEmpty then "" else String.intercalate " " (visualAllText frames)

/-- Embedding of `max(set(detected_actors), key=detected_actors.count)`: an actor of
maximal multiplicity.  (Python iterates the set in unspecified order; the
model fixes first-occurrence order, which only influences the suggestion
string, never a score.) -/
def mainActor (detected : List String) : String :=
  match detected.dedup with
  | [] => ""
  | a :: rest =>
    rest.foldl (fun best x => if detected.count x > detected.count best then x else best) a

/-- The suggestion derived from the combined text alone
(`generate_search_suggestion(combined_text)` if any text was found, else the
initial `''`). -/
def visualSuggestionBase (frames : List FrameCapture) (genSug : String → String) : String :=
  if (visualAllText frames).isEmpty then "" else genSug (visualDetectedText frames)

/-- The final `google_search_suggestion`: the text-derived suggestion,
falling back to `"película {main_actor}"` when it is empty and actors were
recognised. -/
def visualSuggestion (frames : List FrameCapture) (actorsDbNonempty : Bool)
    (genSug : String → String) : String :=
  if visualSuggestionBase frames genSug = "" ∧ ¬(visualActors frames actorsDbNonempty).isEmpty then
    "película " ++ mainActor (visualActors frames actorsDbNonempty)
  else visualSuggestionBase frames genSug

/-- The evidence confidence: `0.5` for truthy detected text, `0.3` for a
truthy (deduplicated) actor list, `0.2` for a truthy suggestion. -/
def visualConfidence (frames : List FrameCapture) (actorsDbNonempty : Bool)
    (genSug : String → String) : ℚ :=
  (if visualDetectedText frames ≠ "" then (0.5 : ℚ) else 0) +
    (if (visualActors frames actorsDbNonempty).dedup ≠ [] then (0.3 : ℚ) else 0) +
    (if visualSuggestion frames actorsDbNonempty genSug ≠ "" then (0.2 : ℚ) else 0)

/-- Embedding of `VideoAnalyzer.perform_visual_analysis`
(src/video_analyzer.py, lines 546-676): `None` when the video cannot be
read or when the computed confidence is not above 0.3, otherwise the
analysis dict. -/
def perform_visual_analysis (videoOk : Bool) (frames : List FrameCapture)
    (actorsDbNonempty : Bool) (genSug : String → String) : Option VisualAnalysisResult :=
  if videoOk = false then none
  else if 0.3 < visualConfidence frames actorsDbNonempty genSug then
    some ⟨visualDetectedText frames, (visualActors frames actorsDbNonempty).dedup,
          visualSuggestion frames actorsDbNonempty genSug,
          visualConfidence frames actorsDbNonempty genSug⟩
  else none

/-- Evaluation of `perform_visual_analysis` on one successful frame with
OCR text `"abcd"` and recognised actor `"Ann"`, where the text-based
suggestion generator produces nothing: the actor fallback fills the
suggestion, so all three evidence terms fire. -/
lemma visual_analysis_text_actor_eval :
    perform_visual_analysis true [⟨true, "abcd", ["Ann"]⟩] true (fun _ => "") =
      some ⟨"abcd", ["Ann"], "película Ann", 1⟩ := by
  have h1 : visualDetectedText [⟨true, "abcd", ["Ann"]⟩] = "abcd" := by decide
  have h2 : (visualActors [⟨true, "abcd", ["Ann"]⟩] true).dedup = ["Ann"] := by decide
  have h3 : visualSuggestion [⟨true, "abcd", ["Ann"]⟩] true (fun _ => "") = "película Ann" := by
    decide
  have hc : visualConfidence [⟨true, "abcd", ["Ann"]⟩] true (fun _ => "") = 1 := by
    rw [visualConfidence, h1, h2, h3]
    rw [if_pos (show ("abcd" : String) ≠ "" from by decide)]
    rw [if_pos (show (["Ann"] : List String) ≠ [] from by decide)]
    rw [if_pos (show ("película Ann" : String) ≠ "" from by decide)]
    norm_num
  rw [perform_visual_analysis]
  rw [if_neg (by decide), if_pos (by rw [hc]; norm_num)]
  rw [hc, h1, h2, h3]

/-- C3, counterexample: a frame with detected text and a recognised actor
but no text-derived title guess scores 1.0, not the claimed 0.8 — the
actor-based fallback (`"película {main_actor}"`) makes the suggestion
nonempty, so the 0.2 term always fires when an actor is recognised. -/
theorem C3_counterexample :
    perform_visual_analysis true [⟨true, "abcd", ["Ann"]⟩] true (fun _ => "") =
        some ⟨"abcd", ["Ann"], "película Ann", 1⟩ ∧
      (1 : ℚ) ≠ 0.8 :=
  ⟨visual_analysis_text_actor_eval, by norm_num⟩

/-- C3, amended: the evidence confidence is
`0.5·[text] + 0.3·[actors] + 0.2·[suggestion]` over the *returned* fields,
and the function returns `None` unless the confidence exceeds 0.3; but an
input with detected text and a recognised actor always scores exactly 1.0
(never 0.8), because the actor fallback guarantees a nonempty suggestion. -/
theorem C3_amended (videoOk : Bool) (frames : List FrameCapture) (adb : Bool)
    (genSug : String → String) (r : VisualAnalysisResult)
    (h : perform_visual_analysis videoOk frames adb genSug = some r) :
    (r.confidence =
        (if r.detected_text ≠ "" then (0.5 : ℚ) else 0) +
          (if r.actors ≠ [] then (0.3 : ℚ) else 0) +
          (if r.google_search_suggestion ≠ "" then (0.2 : ℚ) else 0)) ∧
      (r.detected_text ≠ "" → r.actors ≠ [] → r.confidence = 1) ∧
      0.3 < r.confidence := by
  rw [perform_visual_analysis] at h
  by_cases hv : videoOk = false
  · rw [if_pos hv] at h; cases h
  rw [if_neg hv] at h
  by_cases hconf : 0.3 < visualConfidence frames adb genSug
  · rw [if_pos hconf] at h
    cases h
    refine ⟨rfl, ?_, hconf⟩
    intro ht ha
    replace ht : visualDetectedText frames ≠ "" := ht
    replace ha : (visualActors frames adb).dedup ≠ [] := ha
    have hane : ¬(visualActors frames adb).isEmpty = true := by
      intro hcontra
      exact ha (by rw [List.isEmpty_iff.mp hcontra]; rfl)
    have hs : visualSuggestion frames adb genSug ≠ "" := by
      rw [visualSuggestion]
      by_cases hb : visualSuggestionBase frames genSug = "" ∧
          ¬(visualActors frames adb).isEmpty = true
      · rw [if_pos hb]
        intro hcontra
        have hlen := congrArg String.length hcontra
        rw [String.length_append] at hlen
        have h9 : ("película " : String).length = 9 := rfl
        rw [h9] at hlen
        simp at hlen
      · rw [if_neg hb]
        intro hbase
        exact hb ⟨hbase, hane⟩
    show visualConfidence frames adb genSug = 1
    rw [visualConfidence, if_pos ht, if_pos ha, if_pos hs]
    norm_num
  · rw [if_neg hconf] at h; cases h

/-- C3, witness for the amended theorem on the text-plus-actor frame. -/
theorem C3_amended_witness :
    ((⟨"abcd", ["Ann"], "película Ann", 1⟩ : VisualAnalysisResult).confidence =
        (if (⟨"abcd", ["Ann"], "película Ann", 1⟩ : VisualAnalysisResult).detected_text ≠ ""
          then (0.5 : ℚ) else 0) +
          (if (⟨"abcd", ["Ann"], "película Ann", 1⟩ : VisualAnalysisResult).actors ≠ []
            then (0.3 : ℚ) else 0) +
          (if (⟨"abcd", ["Ann"], "película Ann", 1⟩ :
              VisualAnalysisResult).google_search_suggestion ≠ ""
            then (0.2 : ℚ) else 0)) ∧
      ((⟨"abcd", ["Ann"], "película Ann", 1⟩ : VisualAnalysisResult).detected_text ≠ "" →
        (⟨"abcd", ["Ann"], "película Ann", 1⟩ : VisualAnalysisResult).actors ≠ [] →
        (⟨"abcd", ["Ann"], "película Ann", 1⟩ : VisualAnalysisResult).confidence = 1) ∧
      0.3 < (⟨"abcd", ["Ann"], "película Ann", 1⟩ : VisualAnalysisResult).confidence :=
  C3_amended true [⟨true, "abcd", ["Ann"]⟩] true (fun _ => "") _
    visual_analysis_text_actor_eval

/-!
## File organizer — `FileOrganizer.process_videos`
(src/file_organizer.py, lines 154-355)

The per-file layer pipeline.  External collaborators appear as oracle
fields of a `FileJob`: the parse result of `extract_video_info`, the TMDb
similarity score of `_run_capa_0`, the confidence of
`perform_visual_analysis` (already `None` when that function rejected),
the `confidence_score` of `find_movie_by_audio_analysis`, and the success
of `create_jellyfin_structure`.
-/

/-- Constant `TMDB_CONFIRM_SCORE` (src/file_organizer.py, line 18). -/
def TMDB_CONFIRM_SCORE : ℚ := 0.95

/-- Constant `TMDB_PASS_SCORE` (line 19; used only for log messages). -/
def TMDB_PASS_SCORE : ℚ := 0.70

/-- Constant `FINAL_CONFIDENCE_THRESHOLD` (line 20). -/
def FINAL_CONFIDENCE_THRESHOLD : ℚ := 0.60

/-- The dict `options['capas_activas']`. -/
structure LayerOptions where
  capa_0 : Bool
  capa_1 : Bool
  capa_2 : Bool
  capa_3 : Bool
deriving DecidableEq

/-- The dict `options['modulos_entrada']`. -/
structure ModuleOptions where
  facial_recognition : Bool
  ocr_analysis : Bool
  audio_whisper : Bool
deriving DecidableEq

/-- The `options` dict fields `process_videos` reads. -/
structure ProcessOptions where
  capas : LayerOptions
  modulos : ModuleOptions
  move_files : Bool
deriving DecidableEq

/-- The part of a parse result the organizer branches on
(`video_info['type'] == 'movie'`). -/
structure OrgVideoInfo where
  isMovie : Bool
deriving DecidableEq

/-- The oracle inputs of one file's pipeline run. -/
structure FileJob where
  info : Option OrgVideoInfo
  tmdb : Option ℚ
  visual : Option ℚ
  audio : Option ℚ
  destOk : Bool
deriving DecidableEq

/-- Layer 0 (lines 200-215): `final_confidence` starts at 0 and becomes
`tmdb_info.get('similarity_score', 0.0)` when Layer 0 is enabled and the
TMDb search succeeds. -/
def capa0Confidence (opts : ProcessOptions) (job : FileJob) : ℚ :=
  if opts.capas.capa_0 then
    match job.tmdb with
    | some s => s
    | none => 0
  else 0

/-- The visual-analysis gate (lines 221-226): run OCR/facial analysis only
below the confirm score, when Layer 1 or 3 is enabled and a visual input
module is enabled. -/
def visualRuns (opts : ProcessOptions) (job : FileJob) : Bool :=
  decide (capa0Confidence opts job < TMDB_CONFIRM_SCORE) &&
    (opts.capas.capa_1 || opts.capas.capa_3) &&
    (opts.modulos.facial_recognition || opts.modulos.ocr_analysis)

/-- The variable `analysis_result`: the visual-analysis outcome, present only when the
gate ran it. -/
def analysisResult (opts : ProcessOptions) (job : FileJob) : Option ℚ :=
  if visualRuns opts job then job.visual else none

/-- The Layer-1 gate (line 235). -/
def capa1Runs (opts : ProcessOptions) (job : FileJob) : Bool :=
  decide (capa0Confidence opts job < TMDB_CONFIRM_SCORE) && opts.capas.capa_1

/-- Layer 1 (lines 235-248): the visual score is the pHash proxy; `≥ 0.85`
confirms at 0.95, a better-than-current score contributes `score × 0.8`. -/
def capa1Confidence (opts : ProcessOptions) (job : FileJob) : ℚ :=
  if capa1Runs opts job then
    if 0.85 ≤ (analysisResult opts job).getD 0 then 0.95
    else if capa0Confidence opts job < (analysisResult opts job).getD 0 then
      max (capa0Confidence opts job) ((analysisResult opts job).getD 0 * 0.8)
    else capa0Confidence opts job
  else capa0Confidence opts job

/-- The Layer-2 gate (line 254): strictly below 0.90 and Layer 2 enabled. -/
def capa2Runs (opts : ProcessOptions) (job : FileJob) : Bool :=
  decide (capa1Confidence opts job < 0.90) && opts.capas.capa_2

/-- Was the audio pipeline (`analyze_video_audio` /
`find_movie_by_audio_analysis`) invoked (lines 258-263)? -/
def audioCalled (opts : ProcessOptions) (job : FileJob) : Bool :=
  capa2Runs opts job && opts.modulos.audio_whisper

/-- The variable `audio_match`: the audio identification, only when the audio pipeline
was invoked. -/
def audioMatch (opts : ProcessOptions) (job : FileJob) : Option ℚ :=
  if audioCalled opts job then job.audio else none

/-- Layer 2 (lines 254-272): a match scoring `≥ 0.75` sets 0.98, a weaker
match halves the confidence, no match leaves it unchanged. -/
def capa2Confidence (opts : ProcessOptions) (job : FileJob) : ℚ :=
  if capa2Runs opts job then
    match audioMatch opts job with
    | some s => if 0.75 ≤ s then 0.98 else capa1Confidence opts job * 0.5
    | none => capa1Confidence opts job
  else capa1Confidence opts job

/-- The Layer-3 gate (line 278): strictly below the decision threshold and
Layer 3 enabled. -/
def capa3Runs (opts : ProcessOptions) (job : FileJob) : Bool :=
  decide (capa2Confidence opts job < FINAL_CONFIDENCE_THRESHOLD) && opts.capas.capa_3

/-- Layer 3 (lines 278-293): the simulated Gemini score is
`visual × 0.9`; `≥ 0.80` sets 0.80, `> 0.50` sets 0.65, otherwise the
confidence is clamped to at most 0.40. -/
def capa3Confidence (opts : ProcessOptions) (job : FileJob) : ℚ :=
  if capa3Runs opts job then
    if 0.80 ≤ (analysisResult opts job).getD 0 * 0.9 then 0.80
    else if 0.50 < (analysisResult opts job).getD 0 * 0.9 then 0.65
    else min (capa2Confidence opts job) 0.40
  else capa2Confidence opts job

/-- The per-file outcome of `process_videos`. -/
inductive FileOutcome where
  | unparsed
  | deferred
  | destError
  | organized (moved : Bool)
deriving DecidableEq

/-- The decision for one file (lines 192-195 and 296-338): unparseable
names are skipped; a final confidence below 0.60 defers the file; a failed
destination-folder creation is an error; otherwise the file is organized,
moved exactly when `options['move_files']`. -/
def fileOutcome (opts : ProcessOptions) (job : FileJob) : FileOutcome :=
  match job.info with
  | none => .unparsed
  | some _ =>
    if capa3Confidence opts job < FINAL_CONFIDENCE_THRESHOLD then .deferred
    else if job.destOk = false then .destError
    else .organized opts.move_files

/-- The counters of the `stats` dict this development tracks. -/
structure RunStats where
  movies_processed : ℕ
  series_processed : ℕ
  unknown_files : ℕ
  errors : ℕ
  skipped_low_confidence : ℕ
  visual_analysis_used : ℕ
deriving DecidableEq

/-- The statistics contribution of one file (lines 192-195, 227-228,
300-303, 311-321): parse failure increments `unknown_files`; a visual
analysis with confidence above 0.3 increments `visual_analysis_used`; a
deferred file increments both `skipped_low_confidence` and
`unknown_files`; an accepted file increments `movies_processed` or
`series_processed` (before the destination check) and `errors` when the
destination folder could not be created. -/
def fileStatsDelta (opts : ProcessOptions) (job : FileJob) : RunStats :=
  match job.info with
  | none => ⟨0, 0, 1, 0, 0, 0⟩
  | some info =>
    let vis : ℕ :=
      match analysisResult opts job with
      | some c => if 0.3 < c then 1 else 0
      | none => 0
    if capa3Confidence opts job < FINAL_CONFIDENCE_THRESHOLD then ⟨0, 0, 1, 0, 1, vis⟩
    else
      let m : ℕ := if info.isMovie then 1 else 0
      let s : ℕ := if info.isMovie then 0 else 1
      if job.destOk = false then ⟨m, s, 0, 1, 0, vis⟩ else ⟨m, s, 0, 0, 0, vis⟩

/-- Pointwise sum of statistics. -/
def addStats (a b : RunStats) : RunStats :=
  ⟨a.movies_processed + b.movies_processed, a.series_processed + b.series_processed,
   a.unknown_files + b.unknown_files, a.errors + b.errors,
   a.skipped_low_confidence + b.skipped_low_confidence,
   a.visual_analysis_used + b.visual_analysis_used⟩

/-- The statistics of a whole run over the discovered files, folded in
order as the `for` loop does. -/
def runStats (opts : ProcessOptions) (jobs : List FileJob) : RunStats :=
  jobs.foldl (fun acc job => addStats acc (fileStatsDelta opts job)) ⟨0, 0, 0, 0, 0, 0⟩

/-- C1: when Layer 0 is enabled and the TMDb score reaches 0.95, no visual
analysis, no Layer-1 comparison, no Layer-2 run, no audio call and no
Layer-3 verification happen, and the final confidence is exactly the
Layer-0 score. -/
theorem C1_early_exit (opts : ProcessOptions) (job : FileJob) (s : ℚ)
    (h0 : opts.capas.capa_0 = true) (ht : job.tmdb = some s) (hs : 0.95 ≤ s) :
    visualRuns opts job = false ∧ capa1Runs opts job = false ∧
      capa2Runs opts job = false ∧ audioCalled opts job = false ∧
      capa3Runs opts job = false ∧ capa3Confidence opts job = s := by
  have hc0 : capa0Confidence opts job = s := by
    rw [capa0Confidence, if_pos h0, ht]
  have hn0 : ¬capa0Confidence opts job < TMDB_CONFIRM_SCORE := by
    rw [hc0, TMDB_CONFIRM_SCORE]; exact not_lt.mpr hs
  have hvr : visualRuns opts job = false := by
    rw [visualRuns, decide_eq_false hn0, Bool.false_and, Bool.false_and]
  have h1r : capa1Runs opts job = false := by
    rw [capa1Runs, decide_eq_false hn0, Bool.false_and]
  have hc1 : capa1Confidence opts job = s := by
    rw [capa1Confidence, h1r]; simp [hc0]
  have hn1 : ¬capa1Confidence opts job < 0.90 := by
    rw [hc1]; intro h; norm_num at h; linarith
  have h2r : capa2Runs opts job = false := by
    rw [capa2Runs, decide_eq_false hn1, Bool.false_and]
  have hau : audioCalled opts job = false := by
    rw [audioCalled, h2r, Bool.false_and]
  have hc2 : capa2Confidence opts job = s := by
    rw [capa2Confidence, h2r]; simp [hc1]
  have hn2 : ¬capa2Confidence opts job < FINAL_CONFIDENCE_THRESHOLD := by
    rw [hc2, FINAL_CONFIDENCE_THRESHOLD]; intro h; norm_num at h; linarith
  have h3r : capa3Runs opts job = false := by
    rw [capa3Runs, decide_eq_false hn2, Bool.false_and]
  have hc3 : capa3Confidence opts job = s := by
    rw [capa3Confidence, h3r]; simp [hc2]
  exact ⟨hvr, h1r, h2r, hau, h3r, hc3⟩

/-- C1, witness: all layers and modules enabled, TMDb score 0.96. -/
theorem C1_early_exit_witness :
    visualRuns ⟨⟨true, true, true, true⟩, ⟨true, true, true⟩, true⟩
        ⟨some ⟨true⟩, some 0.96, some 1, some 1, true⟩ = false ∧
      capa1Runs ⟨⟨true, true, true, true⟩, ⟨true, true, true⟩, true⟩
        ⟨some ⟨true⟩, some 0.96, some 1, some 1, true⟩ = false ∧
      capa2Runs ⟨⟨true, true, true, true⟩, ⟨true, true, true⟩, true⟩
        ⟨some ⟨true⟩, some 0.96, some 1, some 1, true⟩ = false ∧
      audioCalled ⟨⟨true, true, true, true⟩, ⟨true, true, true⟩, true⟩
        ⟨some ⟨true⟩, some 0.96, some 1, some 1, true⟩ = false ∧
      capa3Runs ⟨⟨true, true, true, true⟩, ⟨true, true, true⟩, true⟩
        ⟨some ⟨true⟩, some 0.96, some 1, some 1, true⟩ = false ∧
      capa3Confidence ⟨⟨true, true, true, true⟩, ⟨true, true, true⟩, true⟩
        ⟨some ⟨true⟩, some 0.96, some 1, some 1, true⟩ = 0.96 :=
  C1_early_exit ⟨⟨true, true, true, true⟩, ⟨true, true, true⟩, true⟩
    ⟨some ⟨true⟩, some 0.96, some 1, some 1, true⟩ 0.96 rfl rfl (by norm_num)

/-- C5: for a parsed file, a final confidence of exactly 0.60 is accepted
(moved when `move_files` is set and the destination folder is created),
while a final confidence strictly below 0.60 defers the file: it is
counted as low-confidence and unknown, never moved, and not an error. -/
theorem C5_threshold_boundary (opts : ProcessOptions) (job : FileJob)
    (hinfo : job.info.isSome = true) :
    (capa3Confidence opts job = 0.60 →
        fileOutcome opts job ≠ .deferred ∧
          (job.destOk = true → opts.move_files = true →
            fileOutcome opts job = .organized true) ∧
          (fileStatsDelta opts job).skipped_low_confidence = 0) ∧
      (capa3Confidence opts job < 0.60 →
        fileOutcome opts job = .deferred ∧
          (fileStatsDelta opts job).skipped_low_confidence = 1 ∧
          (fileStatsDelta opts job).unknown_files = 1 ∧
          (fileStatsDelta opts job).errors = 0 ∧
          fileOutcome opts job ≠ .organized true) := by
  obtain ⟨info, hi⟩ := Option.isSome_iff_exists.mp hinfo
  constructor
  · intro h60
    have hnlt : ¬capa3Confidence opts job < FINAL_CONFIDENCE_THRESHOLD := by
      rw [h60, FINAL_CONFIDENCE_THRESHOLD]
      norm_num
    refine ⟨?_, ?_, ?_⟩
    · rw [fileOutcome, hi]
      simp only [if_neg hnlt]
      split_ifs <;> simp
    · intro hd hm
      rw [fileOutcome, hi]
      simp only [if_neg hnlt]
      rw [if_neg (by rw [hd]; simp), hm]
    · rw [fileStatsDelta, hi]
      simp only [if_neg hnlt]
      split_ifs <;> rfl
  · intro hlt
    have hlt' : capa3Confidence opts job < FINAL_CONFIDENCE_THRESHOLD := by
      rw [FINAL_CONFIDENCE_THRESHOLD]; exact hlt
    refine ⟨?_, ?_, ?_, ?_, ?_⟩
    · rw [fileOutcome, hi, if_pos hlt']
    · rw [fileStatsDelta, hi]; simp only [if_pos hlt']
    · rw [fileStatsDelta, hi]; simp only [if_pos hlt']
    · rw [fileStatsDelta, hi]; simp only [if_pos hlt']
    · rw [fileOutcome, hi, if_pos hlt']; simp

/-- C5, witness: Layer 0 returns exactly 0.60 with every other layer
disabled; the file is accepted and moved. -/
theorem C5_threshold_boundary_witness :
    fileOutcome ⟨⟨true, false, false, false⟩, ⟨false, false, false⟩, true⟩
        ⟨some ⟨true⟩, some 0.60, none, none, true⟩ ≠ .deferred ∧
      fileOutcome ⟨⟨true, false, false, false⟩, ⟨false, false, false⟩, true⟩
        ⟨some ⟨true⟩, some 0.60, none, none, true⟩ = .organized true ∧
      (fileStatsDelta ⟨⟨true, false, false, false⟩, ⟨false, false, false⟩, true⟩
        ⟨some ⟨true⟩, some 0.60, none, none, true⟩).skipped_low_confidence = 0 := by
  have hc : capa3Confidence ⟨⟨true, false, false, false⟩, ⟨false, false, false⟩, true⟩
      ⟨some ⟨true⟩, some 0.60, none, none, true⟩ = 0.60 := by
    norm_num [capa3Confidence, capa3Runs, capa2Confidence, capa2Runs, audioMatch,
      audioCalled, capa1Confidence, capa1Runs, analysisResult, visualRuns,
      capa0Confidence, FINAL_CONFIDENCE_THRESHOLD, TMDB_CONFIRM_SCORE]
  have h := (C5_threshold_boundary ⟨⟨true, false, false, false⟩, ⟨false, false, false⟩, true⟩
    ⟨some ⟨true⟩, some 0.60, none, none, true⟩ rfl).1 hc
  exact ⟨h.1, h.2.1 rfl rfl, h.2.2⟩

/-- C7: Layer 2 runs exactly when the running confidence is strictly below
0.90 and the layer is enabled; a returned audio match scoring at least 0.75
sets the confidence to 0.98, a weaker returned match halves it, and no
match (including a disabled transcription module) leaves it unchanged. -/
theorem C7_layer2 (opts : ProcessOptions) (job : FileJob) :
    (capa2Runs opts job = true ↔
        (capa1Confidence opts job < 0.90 ∧ opts.capas.capa_2 = true)) ∧
      (∀ s, audioMatch opts job = some s →
        (0.75 ≤ s → capa2Confidence opts job = 0.98) ∧
          (s < 0.75 →
            capa2Confidence opts job = capa1Confidence opts job * 0.5)) ∧
      (audioMatch opts job = none →
        capa2Confidence opts job = capa1Confidence opts job) := by
  refine ⟨?_, ?_, ?_⟩
  · rw [capa2Runs]
    constructor
    · intro h
      have h1 := (Bool.and_eq_true _ _).mp h
      exact ⟨of_decide_eq_true h1.1, h1.2⟩
    · intro ⟨h1, h2⟩
      rw [decide_eq_true h1, h2, Bool.and_self]
  · intro s hm
    have hrun : capa2Runs opts job = true := by
      by_contra hr
      have : audioCalled opts job = false := by
        rw [audioCalled, Bool.eq_false_iff.mpr hr, Bool.false_and]
      rw [audioMatch, this] at hm
      simp at hm
    constructor
    · intro hge
      rw [capa2Confidence, hrun, if_pos rfl, hm]
      show (if 0.75 ≤ s then (0.98 : ℚ) else capa1Confidence opts job * 0.5) = 0.98
      rw [if_pos hge]
    · intro hlt
      rw [capa2Confidence, hrun, if_pos rfl, hm]
      show (if 0.75 ≤ s then (0.98 : ℚ) else capa1Confidence opts job * 0.5) =
        capa1Confidence opts job * 0.5
      rw [if_neg (not_le.mpr hlt)]
  · intro hm
    rw [capa2Confidence]
    by_cases hrun : capa2Runs opts job = true
    · rw [hrun, if_pos rfl, hm]
    · rw [if_neg (by simpa using hrun)]

/-- C7, witness: Layer 0 at 0.70, Layer 2 enabled with a 0.80 audio match
confirms at 0.98. -/
theorem C7_layer2_witness :
    capa2Runs ⟨⟨true, false, true, false⟩, ⟨false, false, true⟩, true⟩
        ⟨some ⟨true⟩, some 0.70, none, some 0.80, true⟩ = true ∧
      capa2Confidence ⟨⟨true, false, true, false⟩, ⟨false, false, true⟩, true⟩
        ⟨some ⟨true⟩, some 0.70, none, some 0.80, true⟩ = 0.98 := by
  have hc1 : capa1Confidence ⟨⟨true, false, true, false⟩, ⟨false, false, true⟩, true⟩
      ⟨some ⟨true⟩, some 0.70, none, some 0.80, true⟩ = 0.70 := by
    norm_num [capa1Confidence, capa1Runs, analysisResult, visualRuns, capa0Confidence,
      TMDB_CONFIRM_SCORE]
  have h := C7_layer2 ⟨⟨true, false, true, false⟩, ⟨false, false, true⟩, true⟩
    ⟨some ⟨true⟩, some 0.70, none, some 0.80, true⟩
  have hrun : capa2Runs ⟨⟨true, false, true, false⟩, ⟨false, false, true⟩, true⟩
      ⟨some ⟨true⟩, some 0.70, none, some 0.80, true⟩ = true :=
    h.1.mpr ⟨by rw [hc1]; norm_num, rfl⟩
  have hmatch : audioMatch ⟨⟨true, false, true, false⟩, ⟨false, false, true⟩, true⟩
      ⟨some ⟨true⟩, some 0.70, none, some 0.80, true⟩ = some 0.80 := by
    rw [audioMatch, audioCalled, hrun, Bool.true_and]
    rfl
  exact ⟨hrun, ((h.2.1 0.80 hmatch).1 (by norm_num))⟩

/-- Each file's contribution keeps the deferred count below the unknown
count. -/
lemma fileStatsDelta_skip_le_unknown (opts : ProcessOptions) (job : FileJob) :
    (fileStatsDelta opts job).skipped_low_confidence ≤
      (fileStatsDelta opts job).unknown_files := by
  rw [fileStatsDelta]
  cases job.info with
  | none => simp
  | some info =>
    simp only []
    split_ifs <;> simp

/-- Folding preserves `skipped ≤ unknown` of the accumulator. -/
lemma runStats_fold_skip_le_unknown (opts : ProcessOptions) :
    ∀ (jobs : List FileJob) (acc : RunStats),
      acc.skipped_low_confidence ≤ acc.unknown_files →
      (jobs.foldl (fun a job => addStats a (fileStatsDelta opts job)) acc).skipped_low_confidence ≤
        (jobs.foldl (fun a job => addStats a (fileStatsDelta opts job)) acc).unknown_files := by
  intro jobs
  induction jobs with
  | nil => intro acc h; exact h
  | cons j rest ih =>
    intro acc h
    apply ih
    have hj := fileStatsDelta_skip_le_unknown opts j
    simp only [addStats]
    omega

/-- C10: a deferred file increments both `skipped_low_confidence` and
`unknown_files`, and over any run `unknown_files ≥ skipped_low_confidence`
(unknown additionally counts unparseable names, which never increment the
skip counter). -/
theorem C10_deferred_counters (opts : ProcessOptions) (jobs : List FileJob) :
    (∀ job : FileJob, fileOutcome opts job = .deferred →
        (fileStatsDelta opts job).skipped_low_confidence = 1 ∧
          (fileStatsDelta opts job).unknown_files = 1) ∧
      (∀ job : FileJob, fileOutcome opts job = .unparsed →
        (fileStatsDelta opts job).unknown_files = 1 ∧
          (fileStatsDelta opts job).skipped_low_confidence = 0) ∧
      (runStats opts jobs).skipped_low_confidence ≤ (runStats opts jobs).unknown_files := by
  refine ⟨?_, ?_, ?_⟩
  · intro job hdef
    rw [fileOutcome] at hdef
    rw [fileStatsDelta]
    cases hj : job.info with
    | none => rw [hj] at hdef; cases hdef
    | some info =>
      rw [hj] at hdef
      simp only []
      by_cases hlt : capa3Confidence opts job < FINAL_CONFIDENCE_THRESHOLD
      · rw [if_pos hlt]; exact ⟨rfl, rfl⟩
      · rw [if_neg hlt] at hdef
        split_ifs at hdef
  · intro job hun
    rw [fileOutcome] at hun
    rw [fileStatsDelta]
    cases hj : job.info with
    | none => exact ⟨rfl, rfl⟩
    | some info =>
      rw [hj] at hun
      split_ifs at hun
  · exact runStats_fold_skip_le_unknown opts jobs ⟨0, 0, 0, 0, 0, 0⟩ (le_refl 0)

/-- C10, witness: one deferred file (Layer 0 at 0.30) and one unparseable
file. -/
theorem C10_deferred_counters_witness :
    (fileStatsDelta ⟨⟨true, false, false, false⟩, ⟨false, false, false⟩, true⟩
        ⟨some ⟨true⟩, some 0.30, none, none, true⟩).skipped_low_confidence = 1 ∧
      (fileStatsDelta ⟨⟨true, false, false, false⟩, ⟨false, false, false⟩, true⟩
        ⟨some ⟨true⟩, some 0.30, none, none, true⟩).unknown_files = 1 := by
  have hdef : fileOutcome ⟨⟨true, false, false, false⟩, ⟨false, false, false⟩, true⟩
      ⟨some ⟨true⟩, some 0.30, none, none, true⟩ = .deferred := by
    rw [fileOutcome]
    simp only []
    rw [if_pos]
    norm_num [capa3Confidence, capa3Runs, capa2Confidence, capa2Runs, audioMatch,
      audioCalled, capa1Confidence, capa1Runs, analysisResult, visualRuns,
      capa0Confidence, FINAL_CONFIDENCE_THRESHOLD, TMDB_CONFIRM_SCORE]
  exact (C10_deferred_counters ⟨⟨true, false, false, false⟩, ⟨false, false, false⟩, true⟩ []).1
    ⟨some ⟨true⟩, some 0.30, none, none, true⟩ hdef

/-!
## Collision-safe renaming (src/file_organizer.py, lines 326-335)

The destination file name is split by `pathlib` into `stem` and `suffix`
before this block runs; the embedding therefore takes `stem` and `ext` as
separate inputs, and the file system's `exists()` as a boolean oracle over
full file names.  The unbounded `while dest_file.exists()` loop is modelled
with a fuel parameter (`none` means the fuel ran out before a free name was
found). -/

/-- Expect exactly one whitespace character (the `\s` of the pattern),
returning the remaining reversed characters. -/
def wsThenStem : List Char → Option (List Char)
  | [] => none
  | w :: rest => if w.isWhitespace then some rest else none

/-- Scan digits from the right (`seen` records whether at least one digit
was consumed, the `+` of `\d+`), then expect `(` followed by the
whitespace character. -/
def digitsThenParen : List Char → Bool → Option (List Char)
  | [], _ => none
  | c :: rest, seen =>
    if c.isDigit then digitsThenParen rest true
    else if c = '(' && seen then wsThenStem rest
    else none

/-- The `\s\(\d+\)$` recogniser over the reversed character list: a
trailing `)`, then digits, `(`, one whitespace; returns the reversed
remainder on a match. -/
def numSuffixRev : List Char → Option (List Char)
  | [] => none
  | c :: rest => if c = ')' then digitsThenParen rest false else none

/-- Does the stem end in `\s\(\d+\)$`?  On success, returns the stem
with the whole match removed, as `re.sub(r'\s\(\d+\)$', '', stem)`
does. -/
def numSuffixSplit? (stem : String) : Option String :=
  (numSuffixRev stem.data.reverse).map fun l => (⟨l.reverse⟩ : String)

/-- Embedding of `re.search(r'\s\(\d+\)$', stem)` as a boolean. -/
def hasNumSuffix (stem : String) : Bool := (numSuffixSplit? stem).isSome

/-- Embedding of `re.sub(r'\s\(\d+\)$', '', stem)` (the identity when there is no
match). -/
def stripNumSuffix (stem : String) : String := (numSuffixSplit? stem).getD stem

/-- The replacement name `f"{original_stem} ({counter}){ext}"`. -/
def candidateName (stem ext : String) (counter : ℕ) : String :=
  stem ++ " (" ++ toString counter ++ ")" ++ ext

/-- The `while dest_file.exists()` loop (lines 332-333), with fuel: try
`stem (counter)ext`, `stem (counter+1)ext`, … until a free name is found. -/
def renameLoop (ex : String → Bool) (stem ext : String) : ℕ → ℕ → Option String
  | 0, _ => none
  | fuel + 1, counter =>
    if ex (candidateName stem ext counter) then renameLoop ex stem ext fuel (counter + 1)
    else some (candidateName stem ext counter)

/-- The whole collision-handling block (lines 327-333): if the destination
exists, strip one pre-existing numeric suffix from its stem and search for
the first free counter starting at 1; otherwise keep the name. -/
def resolveCollision (ex : String → Bool) (stem ext : String) (fuel : ℕ) : Option String :=
  if ex (stem ++ ext) then
    renameLoop ex (if hasNumSuffix stem then stripNumSuffix stem else stem) ext fuel 1
  else some (stem ++ ext)

/-- C6, counterexample: a destination stem that already carries **two**
numeric suffixes has only its last one stripped, so the loop can emit the
very name shape the claim rules out: colliding on `Title (1) (2).ext`
produces `Title (1) (1).ext`. -/
theorem C6_counterexample :
    resolveCollision (fun s => s == "Title (1) (2).ext") "Title (1) (2)" ".ext" 5 =
      some "Title (1) (1).ext" := by decide

/-- A successful `renameLoop` returns the first free candidate at or after
the starting counter. -/
lemma renameLoop_first_free (ex : String → Bool) (stem ext : String) :
    ∀ (fuel c0 : ℕ) (r : String), renameLoop ex stem ext fuel c0 = some r →
      ∃ c, c0 ≤ c ∧ r = candidateName stem ext c ∧ ex r = false ∧
        ∀ k, c0 ≤ k → k < c → ex (candidateName stem ext k) = true := by
  intro fuel
  induction fuel with
  | zero => intro c0 r h; cases h
  | succ n ih =>
    intro c0 r h
    rw [renameLoop] at h
    by_cases hex : ex (candidateName stem ext c0) = true
    · rw [if_pos hex] at h
      obtain ⟨c, hle, hr, hfree, hall⟩ := ih (c0 + 1) r h
      refine ⟨c, by omega, hr, hfree, ?_⟩
      intro k hk1 hk2
      rcases Nat.eq_or_lt_of_le hk1 with heq | hlt
      · rw [← heq]; exact hex
      · exact hall k hlt hk2
    · rw [if_neg hex] at h
      cases h
      exact ⟨c0, le_refl c0, rfl, Bool.eq_false_iff.mpr hex, fun k hk1 hk2 => by omega⟩

/-- Scanning an all-digit block (with at least one digit already seen)
reaches the `(` and hands over to the whitespace check. -/
lemma digitsThenParen_digits :
    ∀ (l : List Char), (∀ c ∈ l, c.isDigit = true) → ∀ tail : List Char,
      digitsThenParen (l ++ '(' :: tail) true = wsThenStem tail := by
  intro l
  induction l with
  | nil =>
    intro _ tail
    rw [List.nil_append, digitsThenParen]
    rw [if_neg (by decide), if_pos (by decide)]
  | cons c cs ih =>
    intro hdig tail
    rw [List.cons_append, digitsThenParen, if_pos (hdig c (List.mem_cons_self c cs))]
    exact ih (fun x hx => hdig x (List.mem_cons_of_mem c hx)) tail

/-- A `" (<digits>)"` suffix appended to any stem is recognised and
stripped back to exactly that stem. -/
lemma numSuffixSplit_append (stem : String) (ds : List Char)
    (hne : ds ≠ []) (hdig : ∀ c ∈ ds, c.isDigit = true) :
    numSuffixSplit? (stem ++ " (" ++ (⟨ds⟩ : String) ++ ")") = some stem := by
  have hdata : (stem ++ " (" ++ (⟨ds⟩ : String) ++ ")").data.reverse =
      ')' :: (ds.reverse ++ '(' :: ' ' :: stem.data.reverse) := by
    rw [String.data_append, String.data_append, String.data_append]
    simp
  rw [numSuffixSplit?, hdata, numSuffixRev, if_pos rfl]
  cases hds : ds.reverse with
  | nil => exact absurd (by simpa using hds) hne
  | cons d rest =>
    have hdigrev : ∀ c ∈ ds.reverse, c.isDigit = true := fun c hc =>
      hdig c (List.mem_reverse.mp hc)
    rw [hds] at hdigrev
    rw [List.cons_append, digitsThenParen,
      if_pos (hdigrev d (List.mem_cons_self d rest))]
    rw [digitsThenParen_digits rest
      (fun x hx => hdigrev x (List.mem_cons_of_mem d hx)) (' ' :: stem.data.reverse)]
    rw [wsThenStem, if_pos (by decide)]
    simp

/-- C6, amended: exactly **one** trailing `' (n)'` suffix is stripped
before the counter loop, and the replacement name uses the smallest free
counter; consequently, whenever the stripped stem carries no further
numeric suffix (in particular for any stem with at most one such suffix),
no compounded `'… (i) (j)'` name is produced, and colliding with an
existing `'Title (1).ext'` (with `'Title (2).ext'` free) yields
`'Title (2).ext'`. -/
theorem C6_amended :
    (∀ (ex : String → Bool) (stem ext : String) (fuel : ℕ) (r : String),
        ex (stem ++ ext) = true → resolveCollision ex stem ext fuel = some r →
        ∃ c, 1 ≤ c ∧ r = candidateName (stripNumSuffix stem) ext c ∧ ex r = false ∧
          ∀ k, 1 ≤ k → k < c → ex (candidateName (stripNumSuffix stem) ext k) = true) ∧
      (∀ (stem : String) (ds : List Char), ds ≠ [] → (∀ c ∈ ds, c.isDigit = true) →
        hasNumSuffix stem = false →
        stripNumSuffix (stem ++ " (" ++ (⟨ds⟩ : String) ++ ")") = stem ∧
          hasNumSuffix (stem ++ " (" ++ (⟨ds⟩ : String) ++ ")") = true ∧
          hasNumSuffix (stripNumSuffix (stem ++ " (" ++ (⟨ds⟩ : String) ++ ")")) = false) ∧
      (∀ (ex : String → Bool) (fuel : ℕ), ex "Title (1).ext" = true →
        ex "Title (2).ext" = false →
        resolveCollision ex "Title (1)" ".ext" (fuel + 2) = some "Title (2).ext") := by
  refine ⟨?_, ?_, ?_⟩
  · intro ex stem ext fuel r hex hres
    rw [resolveCollision, if_pos hex] at hres
    have hsel : (if hasNumSuffix stem then stripNumSuffix stem else stem) =
        stripNumSuffix stem := by
      by_cases h : hasNumSuffix stem = true
      · rw [if_pos h]
      · rw [if_neg (by simpa using h)]
        have hnone : numSuffixSplit? stem = none := by
          rw [hasNumSuffix] at h
          exact Option.not_isSome_iff_eq_none.mp (by simpa using h)
        rw [stripNumSuffix, hnone]
        rfl
    rw [hsel] at hres
    exact renameLoop_first_free ex (stripNumSuffix stem) ext fuel 1 r hres
  · intro stem ds hne hdig hno
    have hsplit := numSuffixSplit_append stem ds hne hdig
    have hstrip : stripNumSuffix (stem ++ " (" ++ (⟨ds⟩ : String) ++ ")") = stem := by
      rw [stripNumSuffix, hsplit]; rfl
    refine ⟨hstrip, ?_, ?_⟩
    · rw [hasNumSuffix, hsplit]; rfl
    · rw [hstrip]; exact hno
  · intro ex fuel h1 h2
    rw [resolveCollision]
    rw [show ("Title (1)" ++ ".ext" : String) = "Title (1).ext" from rfl, if_pos h1]
    rw [show (if hasNumSuffix "Title (1)" then stripNumSuffix "Title (1)" else "Title (1)") =
        "Title" from by decide]
    rw [renameLoop]
    rw [show candidateName "Title" ".ext" 1 = "Title (1).ext" from rfl, if_pos h1]
    rw [renameLoop]
    rw [show candidateName "Title" ".ext" (1 + 1) = "Title (2).ext" from rfl]
    rw [if_neg (by rw [h2]; exact Bool.false_ne_true)]

/-- C6, witness: colliding with an existing `Title (1).ext` (and a free
`Title (2).ext`) yields `Title (2).ext`. -/
theorem C6_amended_witness :
    resolveCollision (fun s => s == "Title (1).ext") "Title (1)" ".ext" 2 =
      some "Title (2).ext" :=
  C6_amended.2.2 (fun s => s == "Title (1).ext") 0 (by decide) (by decide)

/-!
## Filename parser — `VideoAnalyzer.extract_video_info`
(src/video_analyzer.py, lines 44-351)

Each regular expression of the parser is embedded as a character-list
scanner implementing that concrete pattern, with character classes on their
ASCII fragment (`\d` = `Char.isDigit`, `\w` = alphanumeric or `_`,
`\s` = `Char.isWhitespace`) and filenames assumed newline-free.
-/

/-- A word character for `\b` boundaries (ASCII model of `\w`). -/
def isWordChar (c : Char) : Bool := c.isAlphanum || c = '_'

/-- Model of `pathlib.Path(name).stem` for a plain file name: the name
without its final suffix, where a suffix requires a dot that is neither the
first nor the last character. -/
def pathStem (name : String) : String :=
  if name = "" || name = "." || name = ".." then ""
  else
    match name.data.reverse.findIdx? (fun c => c = '.') with
    | some j =>
      let i := name.data.length - 1 - j
      if 0 < i ∧ i + 1 < name.data.length then ⟨name.data.take i⟩ else name
    | none => name

/-- Python `int(...)` on a captured digit string. -/
def digitsToNat (l : List Char) : ℕ := l.foldl (fun acc c => acc * 10 + (c.toNat - 48)) 0

/-- One lowercase ASCII letter, the `[a-z]` class. -/
def isLowerAlpha (c : Char) : Bool := 'a' ≤ c && c ≤ 'z'

/-- Every character is an ASCII digit. -/
def allDigits (l : List Char) : Bool := l.all Char.isDigit

/-- Match `^[a-z]?\d+$` (an optional letter, then only digits). -/
def matchOptLetterDigits : List Char → Bool
  | [] => false
  | c :: rest => if isLowerAlpha c then !rest.isEmpty && allDigits rest else allDigits (c :: rest)

/-- Match `^[a-z]\d{8,}$`. -/
def matchLetterDigits8 : List Char → Bool
  | [] => false
  | c :: rest => isLowerAlpha c && decide (8 ≤ rest.length) && allDigits rest

/-- Match `^\d{8,}` (eight leading digits, rest unconstrained). -/
def startsWith8Digits (l : List Char) : Bool :=
  decide (8 ≤ l.length) && allDigits (l.take 8)

/-- Match `^[a-z]{1,2}\d{6,}$` (greedily two letters, else one). -/
def matchLetters12Digits6 : List Char → Bool
  | [] => false
  | c :: rest =>
    isLowerAlpha c &&
      ((match rest with
        | d :: rest2 => isLowerAlpha d && decide (6 ≤ rest2.length) && allDigits rest2
        | [] => false) ||
        (decide (6 ≤ rest.length) && allDigits rest))

/-- Embedding of `VideoAnalyzer.is_problematic_filename` (lines 44-77):
junk-name patterns over the lowercased stem, then the length and
alphabetic-character floors. -/
def is_problematic_filename (filename : String) : Bool :=
  let name := pyLower (pathStem filename)
  let l := name.data
  matchOptLetterDigits l || matchLetterDigits8 l ||
    "tmp".data.isPrefixOf l || "temp".data.isPrefixOf l ||
    startsWith8Digits l || matchLetters12Digits6 l ||
    "sample".data.isPrefixOf l || "test".data.isPrefixOf l ||
    decide (l.length < 3) || decide (l.countP (fun c => c.isAlpha) < 2)

/-- Match a dotted literal pattern (literal parts joined by a single
any-character gap, the `.` of the regex) at the head of the list. -/
def dotMatchAt : List String → List Char → Bool
  | [], _ => true
  | [p], s => p.data.isPrefixOf s
  | p :: ps, s =>
    p.data.isPrefixOf s &&
      (match s.drop p.data.length with
       | [] => false
       | _ :: rest => dotMatchAt ps rest)

/-- Search a dotted literal pattern anywhere (the unanchored
`re.search`). -/
def dotPatSearch (parts : List String) : List Char → Bool
  | [] => dotMatchAt parts []
  | c :: rest => dotMatchAt parts (c :: rest) || dotPatSearch parts rest

/-- Plain substring membership, Python's `in` (a one-part dotted pattern is
exactly a literal substring search). -/
def strContains (sub s : String) : Bool := dotPatSearch [sub] s.data

/-- Embedding of `VideoAnalyzer.is_extra_content` (lines 79-127): keyword
regexes (with `.` as any character) and literal path indicators over the
lowercased file name.  Patterns `extras?` and `bloopers?` match exactly
when their mandatory part occurs; the `ind.replace(' ', '.')` and
`ind.replace(' ', '_')` indicator variants are written out literally. -/
def is_extra_content (filename : String) : Bool :=
  let name := pyLower filename
  ([["featurette"], ["behind", "the", "scene"], ["making", "of"], ["documentary"],
      ["interview"], ["trailer"], ["teaser"], ["promo"], ["extra"],
      ["special", "feature"], ["deleted", "scene"], ["gag", "reel"], ["blooper"],
      ["commentary"], ["making", "off"], ["detras", "de", "escena"], ["entrevista"],
      ["documental"]].any fun p => dotPatSearch p name.data) ||
    ([("featurettes", "featurettes"), ("extras", "extras"),
        ("special.features", "special_features"), ("behind.the.scenes", "behind_the_scenes"),
        ("documentaries", "documentaries"), ("interviews", "interviews"),
        ("making.of", "making_of")].any fun ind =>
      strContains ind.1 name || strContains ind.2 name)

/-- Embedding of `VideoAnalyzer.classify_extra_type` (lines 275-294). -/
def classify_extra_type (filename : String) : String :=
  let name := pyLower filename
  if ["featurette", "making", "behind"].any (fun w => strContains w name) then "featurette"
  else if ["interview", "entrevista"].any (fun w => strContains w name) then "interview"
  else if ["documentary", "documental"].any (fun w => strContains w name) then "documentary"
  else if ["trailer", "teaser", "promo"].any (fun w => strContains w name) then "trailer"
  else if ["deleted", "scene"].any (fun w => strContains w name) then "deleted_scene"
  else if ["gag", "blooper"].any (fun w => strContains w name) then "blooper"
  else if strContains "commentary" name then "commentary"
  else "extra"

/-- Case-insensitive literal prefix match (the keyword is given in
lowercase); returns the remainder on success. -/
def ciStarts : List Char → List Char → Option (List Char)
  | [], l => some l
  | _ :: _, [] => none
  | k :: ks, c :: cs => if c.toLower = k then ciStarts ks cs else none

/-- Greedy `\s*`. -/
def skipWs (l : List Char) : List Char := l.dropWhile Char.isWhitespace

/-- Try `\d{1,2}` greedily (two digits, backtracking to one) and feed the
captured value to the continuation. -/
def capture12 (k : ℕ → List Char → Option β) : List Char → Option β
  | [] => none
  | c :: rest =>
    if c.isDigit then
      match rest with
      | d :: rest2 =>
        if d.isDigit then
          match k (digitsToNat [c, d]) rest2 with
          | some r => some r
          | none => k (digitsToNat [c]) rest
        else k (digitsToNat [c]) rest
      | [] => k (digitsToNat [c]) []
    else none

/-- Match `[Ss]\d{1,2}\s*[Ee]\d{1,2}` at the head (case-insensitively). -/
def coreSE : List Char → Bool
  | [] => false
  | c :: rest =>
    c.toLower = 's' &&
      (capture12 (fun _ r =>
        match skipWs r with
        | e :: r2 =>
          if e.toLower = 'e' then capture12 (fun _ r3 => some r3) r2 else none
        | [] => none) rest).isSome

/-- Match `\d{1,2}x\d{1,2}` at the head (case-insensitively). -/
def coreXE (l : List Char) : Bool :=
  (capture12 (fun _ r =>
    match r with
    | c :: r2 => if c.toLower = 'x' then capture12 (fun _ r3 => some r3) r2 else none
    | [] => none) l).isSome

/-- Match `<keyword>\s*\d+` at the head (case-insensitively). -/
def coreKeyNum (kw : String) (l : List Char) : Bool :=
  match ciStarts kw.data l with
  | some r =>
    match skipWs r with
    | c :: _ => c.isDigit
    | [] => false
  | none => false

/-- Unanchored search with a head matcher (`re.search`). -/
def searchCore (core : List Char → Bool) : List Char → Bool
  | [] => core []
  | c :: rest => core (c :: rest) || searchCore core rest

/-- The series-vs-movie detector of `extract_video_info` (lines 258-266):
any of the five episode-marker patterns somewhere in the file name. -/
def seriesDetected (filename : String) : Bool :=
  let l := filename.data
  searchCore coreSE l || searchCore coreXE l ||
    searchCore (coreKeyNum "temporada") l || searchCore (coreKeyNum "episode") l ||
    searchCore (coreKeyNum "season") l

/-- Boundary test against the previous original character (the `\b` before
a match): start of string or a non-word character. -/
def boundaryBefore (prev : Option Char) : Bool :=
  match prev with
  | none => true
  | some p => !isWordChar p

/-- Try the alternatives in order at the head of `l`: a case-insensitive
literal match followed by a closing `\b` (next character absent or
non-word); returns the matched length.  A failed closing boundary falls
through to the next alternative, as regex alternation does. -/
def tryAlts (alts : List String) (l : List Char) : Option ℕ :=
  match alts with
  | [] => none
  | a :: rest =>
    match ciStarts a.data l with
    | some r =>
      if (match r with | [] => true | c :: _ => !isWordChar c) then some a.data.length
      else tryAlts rest l
    | none => tryAlts rest l

/-- One pass of `re.sub(r'\b(alt1|alt2|…)\b', ' ', name, flags=IGNORECASE)`:
scan left to right, replace each word-bounded alternative by one space and
continue after the match (boundaries are judged on the original
characters).  The fuel argument (instantiated with the list length, an
upper bound on the scan steps) only makes the recursion structural. -/
def subAltsAux (alts : List String) : ℕ → Option Char → List Char → List Char
  | 0, _, l => l
  | _ + 1, _, [] => []
  | fuel + 1, prev, c :: rest =>
    if boundaryBefore prev then
      match tryAlts alts (c :: rest) with
      | some n =>
        ' ' :: subAltsAux alts fuel (some ((rest.take (n - 1)).getLastD c)) (rest.drop (n - 1))
      | none => c :: subAltsAux alts fuel (some c) rest
    else c :: subAltsAux alts fuel (some c) rest

/-- Apply a word-bounded alternation substitution to a whole character
list. -/
def subAlts (alts : List String) (l : List Char) : List Char :=
  subAltsAux alts l.length none l

/-- The resolution/rip-quality alternatives of the first
`patterns_to_remove` entry (lowercased; matching is case-insensitive). -/
def qualityAlts : List String :=
  ["1080p", "720p", "480p", "2160p", "4k", "hdrip", "brrip", "dvdrip", "webrip", "hdtv"]

/-- The codec alternatives of the second entry. -/
def codecAlts : List String := ["x264", "x265", "h264", "h265", "hevc", "avc"]

/-- The source alternatives of the third entry. -/
def sourceAlts : List String := ["bluray", "blu-ray", "dvd", "web-dl", "webrip"]

/-- The edition alternatives of the fourth entry; `DIRECTORS?\.CUT` is
expanded greedily into its two literal forms. -/
def editionAlts : List String :=
  ["proper", "repack", "extended", "uncut", "dc", "directors.cut", "director.cut"]

/-- One pass of `re.sub(r'\[(.*?)\]', ' ', name)` (or the braces variant):
a lazy bracketed group reaches the first closing bracket.  Fuel as in
`subAltsAux`. -/
def subBracketAux (openC closeC : Char) : ℕ → List Char → List Char
  | 0, l => l
  | _ + 1, [] => []
  | fuel + 1, c :: rest =>
    if c = openC then
      match rest.findIdx? (fun d => d = closeC) with
      | some j => ' ' :: subBracketAux openC closeC fuel (rest.drop (j + 1))
      | none => c :: subBracketAux openC closeC fuel rest
    else c :: subBracketAux openC closeC fuel rest

/-- Apply a bracket-group substitution to a whole character list. -/
def subBracket (openC closeC : Char) (l : List Char) : List Char :=
  subBracketAux openC closeC l.length l

/-- The index of the first position where the episode-marker core
matches. -/
def firstCoreIdx (core : List Char → Bool) : List Char → Option ℕ
  | [] => if core [] then some 0 else none
  | c :: rest =>
    if core (c :: rest) then some 0 else (firstCoreIdx core rest).map (fun i => i + 1)

/-- Embedding of `re.sub(r'\s*<core>.*$', '', name)`: the leftmost match of
the whole pattern starts at the first core position extended backwards over
the contiguous whitespace run (consumed by the leading `\s*`), and `.*$`
deletes everything from there to the end. -/
def cutFromCore (core : List Char → Bool) (l : List Char) : List Char :=
  match firstCoreIdx core l with
  | none => l
  | some p => l.take (p - ((l.take p).reverse.takeWhile Char.isWhitespace).length)

/-- Embedding of `re.sub(r'\([^0-9]*\)', '', name)`: at each `(`, the
greedy digit-free body extends to the last `)` inside the digit-free run;
all such groups are removed.  Fuel as in `subAltsAux`. -/
def subParenAux : ℕ → List Char → List Char
  | 0, l => l
  | _ + 1, [] => []
  | fuel + 1, c :: rest =>
    if c = '(' then
      match ((rest.takeWhile (fun d => !d.isDigit)).reverse.findIdx? (fun d => d = ')')).map
          (fun jr => (rest.takeWhile (fun d => !d.isDigit)).length - 1 - jr) with
      | some j => subParenAux fuel (rest.drop (j + 1))
      | none => c :: subParenAux fuel rest
    else c :: subParenAux fuel rest

/-- Apply the parenthesis-group substitution to a whole character list. -/
def subParen (l : List Char) : List Char := subParenAux l.length l

/-- Embedding of `re.sub(r'[\.\-_]', ' ', name)`. -/
def sepToSpace (l : List Char) : List Char :=
  l.map fun c => if c = '.' || c = '-' || c = '_' then ' ' else c

/-- Helper for `collapseWs`: the flag records whether the previous kept
character position was inside a whitespace run. -/
def collapseWsAux : Bool → List Char → List Char
  | _, [] => []
  | lastWs, c :: rest =>
    if c.isWhitespace then
      if lastWs then collapseWsAux true rest else ' ' :: collapseWsAux true rest
    else c :: collapseWsAux false rest

/-- Embedding of `re.sub(r'\s+', ' ', name)`: each whitespace run becomes
one space. -/
def collapseWs (l : List Char) : List Char := collapseWsAux false l

/-- The separator/whitespace normalisation shared by the cleaning pipeline
and its emptiness fallback (lines 213-214 and 221-222). -/
def normalizeSeps (s : String) : String := pyStrip ⟨collapseWs (sepToSpace s.data)⟩

/-- Check for `(19|20)\d{2}` at the head with a closing `\b`. -/
def checkYearAt : List Char → Bool
  | c1 :: c2 :: c3 :: c4 :: rest =>
    ((c1 = '1' && c2 = '9') || (c1 = '2' && c2 = '0')) && c3.isDigit && c4.isDigit &&
      (match rest with | [] => true | c5 :: _ => !isWordChar c5)
  | _ => false

/-- Scanner for the first `\b(19|20)\d{2}\b` match. -/
def findYearAux : Option Char → List Char → Option String
  | _, [] => none
  | prev, c :: rest =>
    if boundaryBefore prev && checkYearAt (c :: rest) then some ⟨(c :: rest).take 4⟩
    else findYearAux (some c) rest

/-- Embedding of the year extraction
`re.search(r'\b(19|20)\d{2}\b', name)` (line 178). -/
def findYear (s : String) : Option String := findYearAux none s.data

/-- Embedding of `VideoAnalyzer.clean_filename_for_search`
(src/video_analyzer.py, lines 159-225): extract the year, remove the four
tag-alternation groups and the bracket/brace groups, cut the four episode
markers and everything after them, remove digit-free parenthesised groups,
re-append the year, normalise separators and whitespace; if the result is
empty or shorter than two characters, fall back to the normalised raw
stem. -/
def clean_filename_for_search (filename : String) : String × Option String :=
  let name0 := pathStem filename
  let year := findYear name0
  let n1 := subAlts qualityAlts name0.data
  let n2 := subAlts codecAlts n1
  let n3 := subAlts sourceAlts n2
  let n4 := subAlts editionAlts n3
  let n5 := subBracket '[' ']' n4
  let n6 := subBracket '{' '}' n5
  let n7 := cutFromCore coreSE n6
  let n8 := cutFromCore coreXE n7
  let n9 := cutFromCore (coreKeyNum "season") n8
  let n10 := cutFromCore (coreKeyNum "temporada") n9
  let n11 := subParen n10
  let n12 := match year with
    | some y => n11 ++ (" " ++ y).data
    | none => n11
  let n13 := pyStrip ⟨collapseWs (sepToSpace n12)⟩
  if n13 = "" ∨ (pyStrip n13).length < 2 then (normalizeSeps (pathStem filename), year)
  else (n13, year)

/-- The `type` values a parse result can carry. -/
inductive VType where
  | movie
  | series
  | extra
deriving DecidableEq

/-- The parse-result dict of `extract_video_info` (`season`/`episode` are
meaningful only for series, `year` only for movies, `extraType` only for
extras — mirroring which keys the Python dicts carry). -/
structure VInfo where
  vtype : VType
  title : String
  year : Option String
  season : ℕ
  episode : ℕ
  searchTitle : String
  extraType : String
deriving DecidableEq

/-- The lazy group `(.+?)` before a tail pattern: try prefixes of length
1, 2, … (accumulated reversed in `acc`) until the tail matches the
remainder; returns the prefix and the tail's captures. -/
def lazyPrefixGo (tail : List Char → Option β) : List Char → List Char → Option (List Char × β)
  | _, [] => none
  | acc, c :: rest =>
    match tail rest with
    | some b => some ((c :: acc).reverse, b)
    | none => lazyPrefixGo tail (c :: acc) rest

/-- Tail of `(.+?)\s*[Ss](\d{1,2})\s*[Ee](\d{1,2})`. -/
def tailSE (l : List Char) : Option (ℕ × ℕ) :=
  match skipWs l with
  | c :: rest =>
    if c.toLower = 's' then
      capture12 (fun season r =>
        match skipWs r with
        | e :: r2 =>
          if e.toLower = 'e' then capture12 (fun episode _ => some (season, episode)) r2
          else none
        | [] => none) rest
    else none
  | [] => none

/-- Tail of `(.+?)\s*(\d{1,2})x(\d{1,2})`. -/
def tailNxN (l : List Char) : Option (ℕ × ℕ) :=
  capture12 (fun season r =>
    match r with
    | c :: r2 => if c.toLower = 'x' then capture12 (fun ep _ => some (season, ep)) r2 else none
    | [] => none) (skipWs l)

/-- Capture a greedy `(\d+)` run. -/
def digitsRun (l : List Char) : Option (ℕ × List Char) :=
  let run := l.takeWhile Char.isDigit
  if run.isEmpty then none else some (digitsToNat run, l.drop run.length)

/-- The lazy gap `.*?`: find the first position where the matcher
succeeds. -/
def scanFirst (m : List Char → Option β) : List Char → Option β
  | [] => m []
  | c :: rest =>
    match m (c :: rest) with
    | some b => some b
    | none => scanFirst m rest

/-- Tail of `(.+?)\s*<kw1>\s*(\d+).*?<kw2>\s*(\d+)` (the
`Temporada … Capitulo` and `Season … Episode` patterns). -/
def tailKeyPair (kw1 kw2 : String) (l : List Char) : Option (ℕ × ℕ) :=
  match ciStarts kw1.data (skipWs l) with
  | none => none
  | some r1 =>
    match digitsRun (skipWs r1) with
    | none => none
    | some (a, r2) =>
      scanFirst (fun r3 =>
        match ciStarts kw2.data r3 with
        | none => none
        | some r4 =>
          match digitsRun (skipWs r4) with
          | none => none
          | some (b, _) => some (a, b)) r2

/-- The ordered pattern loop of `extract_series_info` (lines 313-330):
first match wins; the captured group(1) is stripped, season and episode are
parsed as integers. -/
def seriesCapture (name : String) : Option (String × ℕ × ℕ) :=
  match lazyPrefixGo tailSE [] name.data with
  | some (pre, se) => some (pyStrip ⟨pre⟩, se.1, se.2)
  | none =>
    match lazyPrefixGo tailNxN [] name.data with
    | some (pre, se) => some (pyStrip ⟨pre⟩, se.1, se.2)
    | none =>
      match lazyPrefixGo (tailKeyPair "temporada" "capitulo") [] name.data with
      | some (pre, se) => some (pyStrip ⟨pre⟩, se.1, se.2)
      | none =>
        match lazyPrefixGo (tailKeyPair "season" "episode") [] name.data with
        | some (pre, se) => some (pyStrip ⟨pre⟩, se.1, se.2)
        | none => none

/-- Embedding of `VideoAnalyzer.extract_series_info` (lines 308-351):
clean the captured series name, falling back to the raw captured name when
cleaning leaves fewer than two characters. -/
def extract_series_info (filename : String) : Option VInfo :=
  match seriesCapture (pathStem filename) with
  | none => none
  | some (seriesName, season, episode) =>
    let cleanName := (clean_filename_for_search seriesName).1
    let title :=
      if cleanName = "" ∨ (pyStrip cleanName).length < 2 then seriesName else cleanName
    some ⟨.series, title, none, season, episode, title, ""⟩

/-- Embedding of `VideoAnalyzer.extract_movie_info` (lines 296-306). -/
def extract_movie_info (filename : String) : VInfo :=
  ⟨.movie, (clean_filename_for_search filename).1, (clean_filename_for_search filename).2,
   0, 0, (clean_filename_for_search filename).1, ""⟩

/-- Tail of `(.+?)\s*\(?(\d{4})\)?\s*Season\s*\d+` (optional parentheses
are consumed greedily when present — retrying without them cannot
succeed, since a digit or the `Season` keyword would have to match the
parenthesis character). -/
def tailPathYearSeason (l : List Char) : Option Unit :=
  let t := skipWs l
  let t1 := match t with
    | '(' :: r => r
    | _ => t
  match t1 with
  | d1 :: d2 :: d3 :: d4 :: rest =>
    if d1.isDigit && d2.isDigit && d3.isDigit && d4.isDigit then
      let t2 := match rest with
        | ')' :: r => r
        | _ => rest
      match ciStarts "season".data (skipWs t2) with
      | some r2 =>
        match skipWs r2 with
        | c :: _ => if c.isDigit then some () else none
        | [] => none
      | none => none
    else none
  | _ => none

/-- Tail of `(.+?)\s*[Ss]\d{2}`. -/
def tailPathS2 (l : List Char) : Option Unit :=
  match skipWs l with
  | c :: d1 :: d2 :: _ =>
    if c.toLower = 's' && d1.isDigit && d2.isDigit then some () else none
  | _ => none

/-- Tail of `(.+?)\s*<kw>\s*\d+` for the bare `Season`/`Temporada` path
patterns. -/
def tailPathKeyNum (kw : String) (l : List Char) : Option Unit :=
  match ciStarts kw.data (skipWs l) with
  | some r =>
    match skipWs r with
    | c :: _ => if c.isDigit then some () else none
    | [] => none
  | none => none

/-- The per-pattern result construction inside `extract_series_from_path`
(lines 148-154): strip the capture, clean it, keep the raw capture when
cleaning yields an empty string. -/
def pathSeriesName (pre : List Char) : String :=
  let seriesName := pyStrip ⟨pre⟩
  let cleanName := (clean_filename_for_search seriesName).1
  if cleanName ≠ "" then cleanName else seriesName

/-- The ordered pattern loop over one path segment. -/
def pathPartSeries (part : String) : Option String :=
  match lazyPrefixGo tailPathYearSeason [] part.data with
  | some (pre, _) => some (pathSeriesName pre)
  | none =>
    match lazyPrefixGo tailPathS2 [] part.data with
    | some (pre, _) => some (pathSeriesName pre)
    | none =>
      match lazyPrefixGo (tailPathKeyNum "season") [] part.data with
      | some (pre, _) => some (pathSeriesName pre)
      | none =>
        match lazyPrefixGo (tailPathKeyNum "temporada") [] part.data with
        | some (pre, _) => some (pathSeriesName pre)
        | none => none

/-- Split a path into its segments (model of `pathlib.Path(p).parts`,
which never contains an empty segment that could match a pattern). -/
def splitSlashAux : List Char → List Char → List String
  | [], acc => if acc.isEmpty then [] else [⟨acc.reverse⟩]
  | c :: cs, acc =>
    if c = '/' then
      if acc.isEmpty then splitSlashAux cs [] else (⟨acc.reverse⟩ : String) :: splitSlashAux cs []
    else splitSlashAux cs (c :: acc)

/-- Embedding of `VideoAnalyzer.extract_series_from_path`
(lines 129-157): the first path segment matching a series pattern
determines the series name. -/
def extract_series_from_path (filepath : String) : Option String :=
  (splitSlashAux filepath.data []).findSome? pathPartSeries

/-- Embedding of `VideoAnalyzer.extract_video_info`
(src/video_analyzer.py, lines 227-273): reject problematic names, classify
extras (deriving the series title from the path or the cleaned file name),
then split series from movies. -/
def extract_video_info (filename : String) (filepath : Option String) : Option VInfo :=
  if is_problematic_filename filename then none
  else if is_extra_content filename then
    let fromPath :=
      match filepath with
      | some fp => (extract_series_from_path fp).getD ""
      | none => ""
    let seriesName := if fromPath ≠ "" then fromPath else (clean_filename_for_search filename).1
    some ⟨.extra,
      (if seriesName ≠ "" then seriesName else "Unknown Series"),
      none, 0, 0,
      (if seriesName ≠ "" then seriesName else "Unknown"),
      classify_extra_type filename⟩
  else if seriesDetected filename then extract_series_info filename
  else some (extract_movie_info filename)

/-- A character whose lowercase form is alphabetic is neither whitespace
nor one of the separator characters the cleaning fallback replaces. -/
lemma survivor_of_lower_alpha (c : Char) (h : (c.toLower).isAlpha = true) :
    c.isWhitespace = false ∧ c ≠ '.' ∧ c ≠ '-' ∧ c ≠ '_' := by
  refine ⟨?_, ?_, ?_, ?_⟩
  · by_contra hw
    rw [Bool.not_eq_false, Char.isWhitespace] at hw
    simp only [Bool.or_eq_true, decide_eq_true_eq] at hw
    rcases hw with ((h1 | h1) | h1) | h1 <;> (subst h1; exact absurd h (by decide))
  · intro he; subst he; exact absurd h (by decide)
  · intro he; subst he; exact absurd h (by decide)
  · intro he; subst he; exact absurd h (by decide)

/-- A character failing the predicate survives `dropWhile`. -/
lemma mem_dropWhile_of_not (p : Char → Bool) (c : Char) (hc : p c = false) :
    ∀ l : List Char, c ∈ l → c ∈ l.dropWhile p := by
  intro l
  induction l with
  | nil => intro h; cases h
  | cons x xs ih =>
    intro hmem
    rw [List.dropWhile_cons]
    by_cases hx : p x = true
    · rw [if_pos hx]
      rcases List.mem_cons.mp hmem with he | hm
      · subst he; rw [hc] at hx; cases hx
      · exact ih hm
    · rw [if_neg hx]; exact hmem

/-- A non-whitespace character survives `pyStrip`. -/
lemma mem_pyStrip (s : String) (c : Char) (hc : c.isWhitespace = false)
    (hm : c ∈ s.data) : c ∈ (pyStrip s).data := by
  show c ∈ ((s.data.dropWhile Char.isWhitespace).reverse.dropWhile Char.isWhitespace).reverse
  rw [List.mem_reverse]
  apply mem_dropWhile_of_not _ _ hc
  rw [List.mem_reverse]
  exact mem_dropWhile_of_not _ _ hc _ hm

/-- A non-whitespace character survives whitespace collapsing. -/
lemma mem_collapseWsAux (c : Char) (hc : c.isWhitespace = false) :
    ∀ (l : List Char) (b : Bool), c ∈ l → c ∈ collapseWsAux b l := by
  intro l
  induction l with
  | nil => intro b h; cases h
  | cons x xs ih =>
    intro b hmem
    rw [collapseWsAux]
    by_cases hx : x.isWhitespace = true
    · rw [if_pos hx]
      rcases List.mem_cons.mp hmem with he | hm
      · subst he; rw [hc] at hx; cases hx
      · by_cases hb : b = true
        · subst hb; rw [if_pos rfl]; exact ih true hm
        · rw [Bool.not_eq_true] at hb; subst hb
          rw [if_neg (by simp)]
          exact List.mem_cons_of_mem _ (ih true hm)
    · rw [if_neg hx]
      rcases List.mem_cons.mp hmem with he | hm
      · subst he; exact List.mem_cons_self _ _
      · exact List.mem_cons_of_mem _ (ih false hm)

/-- A non-separator character survives the separator substitution. -/
lemma mem_sepToSpace (c : Char) (h1 : c ≠ '.') (h2 : c ≠ '-') (h3 : c ≠ '_')
    (l : List Char) (hm : c ∈ l) : c ∈ sepToSpace l := by
  rw [sepToSpace]
  have heq : (if c = '.' || c = '-' || c = '_' then ' ' else c) = c := by
    rw [if_neg]
    simp only [Bool.or_eq_true, decide_eq_true_eq]
    rintro ((h | h) | h)
    exacts [h1 h, h2 h, h3 h]
  exact List.mem_map.mpr ⟨c, hm, heq⟩

/-- The cleaning fallback keeps any character whose lowercase form is
alphabetic, hence produces a nonempty string. -/
lemma normalizeSeps_ne_empty (s : String) (c : Char) (hm : c ∈ s.data)
    (halpha : (c.toLower).isAlpha = true) : normalizeSeps s ≠ "" := by
  obtain ⟨hws, h1, h2, h3⟩ := survivor_of_lower_alpha c halpha
  have m1 := mem_sepToSpace c h1 h2 h3 s.data hm
  have m2 : c ∈ collapseWs (sepToSpace s.data) := mem_collapseWsAux c hws _ false m1
  have m3 : c ∈ (pyStrip ⟨collapseWs (sepToSpace s.data)⟩).data :=
    mem_pyStrip _ c hws m2
  intro he
  rw [normalizeSeps] at he
  rw [he] at m3
  cases m3

/-- A non-problematic file name has at least two alphabetic characters in
its lowercased stem. -/
lemma countP_of_not_problematic (filename : String)
    (hp : is_problematic_filename filename = false) :
    2 ≤ (pyLower (pathStem filename)).data.countP (fun c => c.isAlpha) := by
  simp only [is_problematic_filename, Bool.or_eq_false_iff] at hp
  have hlast := hp.2
  rw [decide_eq_false_iff_not] at hlast
  omega

/-- A non-problematic file name cleans to a nonempty search title: either
the pipeline result passed the two-character floor, or the fallback keeps
the stem's alphabetic characters. -/
lemma clean_ne_empty (filename : String)
    (hp : is_problematic_filename filename = false) :
    (clean_filename_for_search filename).1 ≠ "" := by
  have h2 := countP_of_not_problematic filename hp
  have hpos : 0 < (pyLower (pathStem filename)).data.countP (fun c => c.isAlpha) := by omega
  have hex := List.countP_pos_iff.mp hpos
  obtain ⟨y, hy, hya⟩ := hex
  have hy2 : y ∈ (pathStem filename).data.map Char.toLower := hy
  obtain ⟨c, hc, hyc⟩ := List.mem_map.mp hy2
  have halpha : (c.toLower).isAlpha = true := by rw [hyc]; exact hya
  simp only [clean_filename_for_search]
  split_ifs with hguard
  · exact normalizeSeps_ne_empty (pathStem filename) c hc halpha
  · push_neg at hguard
    exact hguard.1

set_option maxRecDepth 16000 in
/-- C9, counterexample: the file name `' S01E01.mkv'` is not rejected as
problematic (7 characters, 2 letters), is detected as a series, and the
first series pattern captures a whitespace-only group(1); both the cleaned
name and the raw fallback are empty, so the returned candidate carries an
empty `title` and `search_title`. -/
theorem C9_counterexample :
    extract_video_info " S01E01.mkv" none =
      some ⟨VType.series, "", none, 1, 1, "", ""⟩ := by decide

/-- C9, amended: a returned movie or extra candidate always has nonempty
`title` and `search_title`; a returned series candidate does too **provided
the raw captured series name (group(1) stripped) is nonempty** — when that
capture strips to the empty string, both fallbacks are empty and the
candidate's title is empty. -/
theorem C9_amended (filename : String) (filepath : Option String) (info : VInfo)
    (h : extract_video_info filename filepath = some info) :
    (info.vtype = VType.movie → info.title ≠ "" ∧ info.searchTitle ≠ "") ∧
      (info.vtype = VType.extra → info.title ≠ "" ∧ info.searchTitle ≠ "") ∧
      (∀ raw s e, seriesCapture (pathStem filename) = some (raw, s, e) → raw ≠ "" →
        info.title ≠ "" ∧ info.searchTitle ≠ "") := by
  rw [extract_video_info.eq_def] at h
  by_cases hprob : is_problematic_filename filename = true
  · rw [if_pos hprob] at h; cases h
  rw [if_neg hprob] at h
  rw [Bool.not_eq_true] at hprob
  by_cases hextra : is_extra_content filename = true
  · rw [if_pos hextra] at h
    cases h
    have htitle : ∀ u v : String, v ≠ "" →
        (if u ≠ "" then u else v) ≠ "" := by
      intro u v hv
      by_cases hu : u ≠ ""
      · rw [if_pos hu]; exact hu
      · rw [if_neg hu]; exact hv
    refine ⟨?_, ?_, ?_⟩
    · intro hv; cases hv
    · intro _
      exact ⟨htitle _ _ (by decide), htitle _ _ (by decide)⟩
    · intro raw s e _ _
      exact ⟨htitle _ _ (by decide), htitle _ _ (by decide)⟩
  · rw [if_neg hextra] at h
    by_cases hser : seriesDetected filename = true
    · rw [if_pos hser] at h
      rw [extract_series_info] at h
      rcases hc : seriesCapture (pathStem filename) with _ | ⟨raw0, s0, e0⟩
      · rw [hc] at h; cases h
      · rw [hc] at h
        replace h : some (⟨VType.series,
            (if (clean_filename_for_search raw0).1 = "" ∨
                (pyStrip (clean_filename_for_search raw0).1).length < 2 then raw0
              else (clean_filename_for_search raw0).1),
            none, s0, e0,
            (if (clean_filename_for_search raw0).1 = "" ∨
                (pyStrip (clean_filename_for_search raw0).1).length < 2 then raw0
              else (clean_filename_for_search raw0).1), ""⟩ : VInfo) = some info := h
        cases h
        refine ⟨?_, ?_, ?_⟩
        · intro hv; cases hv
        · intro hv; cases hv
        intro raw s e hcap hraw
        have hr : raw0 = raw := by
          injection hcap with h1
          injection h1
        subst hr
        have htit : (if (clean_filename_for_search raw0).1 = "" ∨
            (pyStrip (clean_filename_for_search raw0).1).length < 2 then raw0
          else (clean_filename_for_search raw0).1) ≠ "" := by
          split_ifs with hg
          · exact hraw
          · push_neg at hg
            exact hg.1
        dsimp only
        exact ⟨htit, htit⟩
    · rw [if_neg hser] at h
      cases h
      have hclean := clean_ne_empty filename hprob
      refine ⟨?_, ?_, ?_⟩
      · intro _
        exact ⟨hclean, hclean⟩
      · intro hv; cases hv
      · intro raw s e _ _
        exact ⟨hclean, hclean⟩

/-- C9, witness: the plain movie name `Movie.mkv` parses to the nonempty
title `Movie`. -/
theorem C9_amended_witness :
    (⟨VType.movie, "Movie", none, 0, 0, "Movie", ""⟩ : VInfo).title ≠ "" ∧
      (⟨VType.movie, "Movie", none, 0, 0, "Movie", ""⟩ : VInfo).searchTitle ≠ "" :=
  (C9_amended "Movie.mkv" none _ (by decide)).1 rfl

end VideoSort
